import Mathlib

/-!
# Verification of the thread-dump parser (`src/parser/parseThreadDump.tsx`)

This development shallowly embeds the thread-dump parser of the repository
into Lean.  Lines of a dump are matched by executable functions that follow
the JavaScript regular expressions of the source file; the mutable object
graph of the source (Thread and Lock objects connected by references, plus
the module-global `currentThread` cursor) is modelled as an explicit heap of
threads and locks addressed by indices, threaded through the parsing
functions as state.

The classes `Thread`, `Lock`, `ThreadDump`, the `ThreadStatus` enumeration
and the `RegExpUtils` helpers are imported by the parser from files that are
not part of the sources here; their shapes are modelled from the spec
(its data-model section and its description of the helpers) and from how the
parser uses them, as noted on each definition.
-/

namespace Watson

/-! ## Character classes used by the source regular expressions -/

/-- JavaScript `\s` restricted to the ASCII whitespace characters that can
occur in a thread-dump line (a line never contains `'\n'` after splitting,
but the class keeps it for fidelity). -/
def isWs (c : Char) : Bool :=
  c == ' ' || c == '\t' || c == '\n' || c == '\r' || c == '\x0b' || c == '\x0c'

/-- JavaScript `.`: any character except the line terminators. -/
def dotChar (c : Char) : Bool :=
  !(c == '\n' || c == '\r')

/-- The character class `[0-9a-fx,]` of `NID_PATTERN`. -/
def isNidChar (c : Char) : Bool :=
  c.isDigit || ('a' ≤ c && c ≤ 'f') || c == 'x' || c == ','

/-- The character class `[x0-9a-f]` of `SYNCHRONIZATION_STATUS_PATTERN` and
`HELD_LOCK_PATTERN` (no comma, unlike `NID_PATTERN`). -/
def isLockIdChar (c : Char) : Bool :=
  c.isDigit || ('a' ≤ c && c ≤ 'f') || c == 'x'

/-! ## Line matchers

Each matcher implements one of the source regular expressions, with
JavaScript leftmost-match / greedy / lazy backtracking semantics worked out
for the concrete pattern.  They return the captured groups, or `none` when
the pattern does not match.  `matchOne` of the absent `RegExpUtils` module is
modelled (from the spec's description of the line classifier and from the
call sites, which `.trim()` and truthiness-test its result) as returning the
first captured group, and the empty string when there is no match. -/

/-- Greedy capture for `(.*)\" ` (the tail of `NAME_PATTERN`,
`/^\"(.*)\" /`): the longest prefix of line-characters that is followed by a
quote and a space.  Preferring the recursive extension implements the greedy
`.*`. -/
def nameCap : List Char → Option (List Char)
  | [] => none
  | c :: cs =>
    match (if dotChar c then nameCap cs else none) with
    | some p => some (c :: p)
    | none =>
      match c, cs with
      | '"', ' ' :: _ => some []
      | _, _ => none

/-- `NAME_PATTERN = /^\"(.*)\" /`: anchored at a leading quote. -/
def matchName (line : List Char) : Option (List Char) :=
  match line with
  | '"' :: rest => nameCap rest
  | _ => none

/-- One attempt of `NID_PATTERN = / nid=([0-9a-fx,]+)/` at the current
position: the literal ` nid=` followed by at least one class character;
the greedy `+` takes the maximal run. -/
def nidHere (cs : List Char) : Option (List Char) :=
  match cs with
  | ' ' :: 'n' :: 'i' :: 'd' :: '=' :: rest =>
    let cap := rest.takeWhile isNidChar
    if cap.isEmpty then none else some cap
  | _ => none

/-- `NID_PATTERN`, unanchored: the JavaScript engine tries the pattern at
every start position from the left and returns the first success. -/
def matchNid : List Char → Option (List Char)
  | [] => none
  | c :: cs =>
    match nidHere (c :: cs) with
    | some cap => some cap
    | none => matchNid cs

/-- `FRAME_PATTERN = /^\s+at (.*)/`: one or more whitespace characters (the
maximal run — `'a'` is not whitespace, so no backtracking is possible), the
literal `at `, then the rest of the line as the frame. -/
def matchFrame (cs : List Char) : Option (List Char) :=
  if (cs.takeWhile isWs).isEmpty then none
  else
    match cs.dropWhile isWs with
    | 'a' :: 't' :: ' ' :: r => some (r.takeWhile dotChar)
    | _ => none

/-- `THREAD_STATE_PATTERN = /^\s*java.lang.Thread.State: (.*)/`: optional
whitespace, then the 24-character template in which the three unescaped
regex dots match any non-terminator character, then the state token. -/
def matchThreadState (cs : List Char) : Option (List Char) :=
  match cs.dropWhile isWs with
  | 'j' :: 'a' :: 'v' :: 'a' :: c1 :: 'l' :: 'a' :: 'n' :: 'g' :: c2 ::
    'T' :: 'h' :: 'r' :: 'e' :: 'a' :: 'd' :: c3 ::
    'S' :: 't' :: 'a' :: 't' :: 'e' :: ':' :: ' ' :: r =>
    if dotChar c1 && dotChar c2 && dotChar c3 then some (r.takeWhile dotChar)
    else none
  | _ => none

/-- Greedy capture for `(.*)\)` (the class-name tail of the two lock
patterns): the longest prefix of line-characters followed by a closing
parenthesis. -/
def classCap : List Char → Option (List Char)
  | [] => none
  | c :: cs =>
    match (if dotChar c then classCap cs else none) with
    | some p => some (c :: p)
    | none => if c == ')' then some [] else none

/-- The part of `SYNCHRONIZATION_STATUS_PATTERN` after the lazy verb:
` +<([x0-9a-f]+)> \(a (.*)\)`.  Each step is deterministic: the space run
and the id run are maximal and their follow characters are outside the
repeated classes. -/
def syncTail (r : List Char) : Option (List Char × List Char) :=
  if (r.takeWhile (· == ' ')).isEmpty then none
  else
    match r.dropWhile (· == ' ') with
    | '<' :: r2 =>
      let idCs := r2.takeWhile isLockIdChar
      if idCs.isEmpty then none
      else
        match r2.dropWhile isLockIdChar with
        | '>' :: ' ' :: '(' :: 'a' :: ' ' :: r4 =>
          (classCap r4).map (fun cl => (idCs, cl))
        | _ => none
    | _ => none

/-- The lazy verb `(.*?)` of `SYNCHRONIZATION_STATUS_PATTERN`: shortest
verb first, growing one (non-terminator) character at a time until the tail
of the pattern matches. -/
def syncVerbScan : List Char → List Char → Option (List Char × List Char × List Char)
  | acc, [] => (syncTail []).map (fun p => (acc.reverse, p.1, p.2))
  | acc, c :: cs =>
    match syncTail (c :: cs) with
    | some (idCs, cl) => some (acc.reverse, idCs, cl)
    | none => if dotChar c then syncVerbScan (c :: acc) cs else none

/-- `SYNCHRONIZATION_STATUS_PATTERN = /^\s+- (.*?) +<([x0-9a-f]+)> \(a (.*)\)/`:
captures (verb, lock id, class name). -/
def matchSyncStatus (cs : List Char) : Option (List Char × List Char × List Char) :=
  if (cs.takeWhile isWs).isEmpty then none
  else
    match cs.dropWhile isWs with
    | '-' :: ' ' :: r => syncVerbScan [] r
    | _ => none

/-- `HELD_LOCK_PATTERN = /^\s+- <([x0-9a-f]+)> \(a (.*)\)/`:
captures (lock id, class name). -/
def matchHeldLock (cs : List Char) : Option (List Char × List Char) :=
  if (cs.takeWhile isWs).isEmpty then none
  else
    match cs.dropWhile isWs with
    | '-' :: ' ' :: '<' :: r =>
      let idCs := r.takeWhile isLockIdChar
      if idCs.isEmpty then none
      else
        match r.dropWhile isLockIdChar with
        | '>' :: ' ' :: '(' :: 'a' :: ' ' :: r4 =>
          (classCap r4).map (fun cl => (idCs, cl))
        | _ => none
    | _ => none

/-- `matchOne` of the absent `RegExpUtils` module, modelled from the spec:
the first captured group as a string, or the empty string (which is falsy at
every call site) when the pattern did not match. -/
def matchOneD (m : Option (List Char)) : String :=
  String.mk (m.getD [])

/-- JavaScript `String.prototype.startsWith` restricted to what the parser
uses (a one-character needle for the thread-header quote). -/
def strStarts : List Char → List Char → Bool
  | _, [] => true
  | [], _ :: _ => false
  | c :: cs, p :: ps => c == p && strStarts cs ps

def jsStartsWith (s p : String) : Bool :=
  strStarts s.toList p.toList

/-- JavaScript `String.prototype.trim` (the parser applies it to the
captured thread name). -/
def jsTrim (s : String) : String :=
  String.mk (((s.toList.dropWhile isWs).reverse.dropWhile isWs).reverse)

/-- JavaScript `parseInt(s, 10)` on the strings the parser feeds it (a
captured `[0-9a-fx,]+` token or the empty string): the maximal leading run
of decimal digits as a number, or `none` for `NaN` when there is no leading
digit. -/
def parseIntDec (s : String) : Option Nat :=
  let ds := s.toList.takeWhile Char.isDigit
  if ds.isEmpty then none
  else some (ds.foldl (fun n c => 10 * n + (c.toNat - 48)) 0)

/-- JavaScript `text.split('\n')`: `""` yields `[""]`, a trailing newline
yields a trailing empty line. -/
def splitLines : List Char → List (List Char)
  | [] => [[]]
  | c :: cs =>
    if c == '\n' then [] :: splitLines cs
    else
      match splitLines cs with
      | [] => [[c]]
      | l :: ls => (c :: l) :: ls

/-! ## Thread status classification -/

/-- The `ThreadStatus` enumeration.  Modelled from the spec: the member
names RUNNABLE, BLOCKED, WAITING, TIMED_WAITING, NEW, TERMINATED, UNKNOWN of
the data model's lifecycle status (the enumeration's source file is not
among the sources). -/
inductive ThreadStatus where
  | RUNNABLE
  | BLOCKED
  | WAITING
  | TIMED_WAITING
  | NEW
  | TERMINATED
  | UNKNOWN
deriving DecidableEq, BEq, Repr, Inhabited

/-- The exact-name lookup `ThreadStatus[status as keyof typeof ThreadStatus]`
of `stringToThreadStatus`: `some` when the token is exactly a member name.
Modelled from the spec ("first attempting an exact-name match against the
enumeration's member names"). -/
def threadStatusExact (s : String) : Option ThreadStatus :=
  if s = "RUNNABLE" then some .RUNNABLE
  else if s = "BLOCKED" then some .BLOCKED
  else if s = "WAITING" then some .WAITING
  else if s = "TIMED_WAITING" then some .TIMED_WAITING
  else if s = "NEW" then some .NEW
  else if s = "TERMINATED" then some .TERMINATED
  else if s = "UNKNOWN" then some .UNKNOWN
  else none

/-- `stringToThreadStatus`, translated from the source: exact-name match
first, then the three `startsWith` rules in source order, else UNKNOWN. -/
def stringToThreadStatus (status : String) : ThreadStatus :=
  match threadStatusExact status with
  | some threadStatus => threadStatus
  | none =>
    if jsStartsWith status "BLOCKED" then .BLOCKED
    else if jsStartsWith status "WAITING" then .WAITING
    else if jsStartsWith status "TIME_WAITING" then .TIMED_WAITING
    else .UNKNOWN

/-! ## The data model

Thread and Lock objects are mutable and shared by reference in the source;
here they live in heaps indexed by allocation order, and every reference
field stores a heap index.  The heaps and the module-global `currentThread`
cursor together form the `GlobalState` that persists across invocations of
`parseThreadDump`; a `ThreadDump` holds the indices of the threads and locks
belonging to one parse, in insertion order. -/

/-- A Lock.  Modelled from the spec's data model: identity key, class
label, at most one owning thread (`none` covers both the never-set and the
explicitly cleared owner), and the list of thread indices waiting on it. -/
structure Lock where
  id : String := ""
  className : String := ""
  owner : Option Nat := none
  waiting : List Nat := []
deriving DecidableEq, Repr, Inhabited

/-- A Thread.  Modelled from the spec's data model and the parser's field
accesses: `id` is the `parseInt` result (`none` for `NaN`), `status` is
`none` until a `Thread.State:` line assigns it, the lock fields hold lock
heap indices. -/
structure Thread where
  name : String := ""
  id : Option Nat := none
  status : Option ThreadStatus := none
  stackTrace : List String := []
  locksHeld : List Nat := []
  classicalLocksHeld : List Nat := []
  lockWaitingFor : Option Nat := none
deriving DecidableEq, Repr, Inhabited

/-- One dump's thread sequence and lock set, as heap indices in insertion
order.  The capture date (parsed from the filename by a helper outside the
parser file) is not modelled: no verified property concerns it. -/
structure ThreadDump where
  threads : List Nat := []
  locks : List Nat := []
deriving DecidableEq, Repr, Inhabited

/-- The object heaps plus the module-global `let currentThread: Thread`
cursor, which the source never resets between `parseThreadDump` calls. -/
structure GlobalState where
  threadHeap : List Thread := []
  lockHeap : List Lock := []
  currentThread : Option Nat := none
deriving DecidableEq, Repr, Inhabited

def initState : GlobalState := {}

def getThread (g : GlobalState) (i : Nat) : Thread :=
  g.threadHeap.getD i default

def getLock (g : GlobalState) (i : Nat) : Lock :=
  g.lockHeap.getD i default

def modifyThread (g : GlobalState) (i : Nat) (f : Thread → Thread) : GlobalState :=
  { g with threadHeap := g.threadHeap.set i (f (getThread g i)) }

def modifyLock (g : GlobalState) (i : Nat) (f : Lock → Lock) : GlobalState :=
  { g with lockHeap := g.lockHeap.set i (f (getLock g i)) }

/-! ## The parser -/

/-- The linear lookup loop of `getOrCreateLock`: the first lock in the
dump's lock list whose `id` equals the requested identity key. -/
def findLockIdx (g : GlobalState) (locks : List Nat) (id : String) : Option Nat :=
  locks.find? (fun li => (getLock g li).id == id)

/-- `getOrCreateLock(locks, id, className)`: return the first existing lock
with this id, or construct a fresh one (owner unset, waiting set empty),
append it to the heap and to the dump's lock list, and return it. -/
def getOrCreateLock (g : GlobalState) (d : ThreadDump) (id className : String) :
    GlobalState × ThreadDump × Nat :=
  match findLockIdx g d.locks id with
  | some li => (g, d, li)
  | none =>
    let li := g.lockHeap.length
    ({ g with lockHeap := g.lockHeap ++ [{ id := id, className := className }] },
     { d with locks := d.locks ++ [li] }, li)

/-- `parseThreadHeader`: construct a new Thread, append it to the dump's
thread list, make it the current thread, and fill its name (first capture of
`NAME_PATTERN`, trimmed) and numeric id (`parseInt(..., 10)` of the
`NID_PATTERN` capture). -/
def parseThreadHeader (header : List Char) (g : GlobalState) (d : ThreadDump) :
    GlobalState × ThreadDump :=
  let i := g.threadHeap.length
  let nm := jsTrim (matchOneD (matchName header))
  let tid := parseIntDec (matchOneD (matchNid header))
  ({ g with threadHeap := g.threadHeap ++ [{ name := nm, id := tid }],
            currentThread := some i },
   { d with threads := d.threads ++ [i] })

/-- The body of the `waiting on` / `parking to wait for` / `waiting to lock`
cases: fetch-or-create the lock, push the current thread onto its waiting
list, and point the current thread's wait-target at it. -/
def waitingRecord (lockId className : String) (cur : Nat) (g : GlobalState)
    (d : ThreadDump) : GlobalState × ThreadDump :=
  let (g, d, li) := getOrCreateLock g d lockId className
  let g := modifyLock g li (fun l => { l with waiting := l.waiting ++ [cur] })
  let g := modifyThread g cur (fun t => { t with lockWaitingFor := some li })
  (g, d)

/-- The non-suppressed part of the `locked` case: fetch-or-create the lock,
make the current thread its owner, and append it to the thread's held list
and classical-held sublist. -/
def lockedRecord (lockId className : String) (cur : Nat) (g : GlobalState)
    (d : ThreadDump) : GlobalState × ThreadDump :=
  let (g, d, li) := getOrCreateLock g d lockId className
  let g := modifyLock g li (fun l => { l with owner := some cur })
  let g := modifyThread g cur (fun t =>
    { t with locksHeld := t.locksHeld ++ [li],
             classicalLocksHeld := t.classicalLocksHeld ++ [li] })
  (g, d)

/-- The body of the held-lock branch: fetch-or-create the lock, make the
current thread its owner, and append it to the held list only (not the
classical sublist). -/
def heldLockRecord (lockId className : String) (cur : Nat) (g : GlobalState)
    (d : ThreadDump) : GlobalState × ThreadDump :=
  let (g, d, li) := getOrCreateLock g d lockId className
  let g := modifyLock g li (fun l => { l with owner := some cur })
  let g := modifyThread g cur (fun t => { t with locksHeld := t.locksHeld ++ [li] })
  (g, d)

/-- `parseStackLine`, translated branch by branch: no current thread means
no-op; then the frame, thread-state, synchronization-status and held-lock
patterns are tried in source order (the `if (...)` truthiness tests make an
empty capture fall through); the ignorable patterns and the warnings change
no state. -/
def parseStackLine (line : List Char) (g : GlobalState) (d : ThreadDump) :
    GlobalState × ThreadDump :=
  match g.currentThread with
  | none => (g, d)
  | some cur =>
    let frame := matchOneD (matchFrame line)
    if frame ≠ "" then
      (modifyThread g cur (fun t => { t with stackTrace := t.stackTrace ++ [frame] }), d)
    else
      let threadState := matchOneD (matchThreadState line)
      if threadState ≠ "" then
        (modifyThread g cur (fun t =>
          { t with status := some (stringToThreadStatus threadState) }), d)
      else
        match matchSyncStatus line with
        | some (verbCs, lockIdCs, classNameCs) =>
          let state := String.mk verbCs
          let lockId := String.mk lockIdCs
          let className := String.mk classNameCs
          if state = "waiting on" ∨ state = "parking to wait for" ∨
             state = "waiting to lock" then
            waitingRecord lockId className cur g d
          else if state = "locked" then
            match (getThread g cur).lockWaitingFor with
            | some wi =>
              if (getLock g wi).id = lockId then
                -- lock is released while waiting for the notification
                (g, d)
              else lockedRecord lockId className cur g d
            | none => lockedRecord lockId className cur g d
          else
            -- "eliminated" and unknown verbs: no state change
            (g, d)
        | none =>
          match matchHeldLock line with
          | some (lockIdCs, classNameCs) =>
            heldLockRecord (String.mk lockIdCs) (String.mk classNameCs) cur g d
          | none => (g, d)

/-- `parseLine`: a line starting with a quote is a thread header; any other
non-empty line goes to `parseStackLine`. -/
def parseLine (line : List Char) (gd : GlobalState × ThreadDump) :
    GlobalState × ThreadDump :=
  if strStarts line ['"'] then parseThreadHeader line gd.1 gd.2
  else if line ≠ [] then parseStackLine line gd.1 gd.2
  else gd

/-! ## The anonymous-synchronizer resolver -/

def validStatuses : List ThreadStatus := [.BLOCKED, .TIMED_WAITING, .WAITING]

/-- The filter chain of `identifyAnonymousSynchronizers`: no wait-target and
a status in `validStatuses` (an unset status, `undefined` in the source,
is in no list). -/
def qualifies (g : GlobalState) (ti : Nat) : Bool :=
  (getThread g ti).lockWaitingFor.isNone &&
    (match (getThread g ti).status with
     | some st => validStatuses.contains st
     | none => false)

/-- One iteration of the resolver's `forEach`.  `classicalLocksHeld[0]` on
an empty list is `undefined` in the source, so the subsequent
`lock.owner = null` throws a TypeError: that outcome is `none`.  Otherwise
the first classical lock's owner is cleared, the thread joins its waiting
set and takes it as wait-target, and the lock is spliced out of both held
lists (`splice(indexOf(lock), 1)` removes the first occurrence, or the last
element when `indexOf` returns `-1`). -/
def resolveOne (g : GlobalState) (ti : Nat) : Option GlobalState :=
  match (getThread g ti).classicalLocksHeld.head? with
  | none => none
  | some li =>
    let g := modifyLock g li (fun l => { l with owner := none, waiting := l.waiting ++ [ti] })
    let g := modifyThread g ti (fun t =>
      { t with lockWaitingFor := some li,
               locksHeld := spliceOut t.locksHeld li,
               classicalLocksHeld := spliceOut t.classicalLocksHeld li })
    some g
where
  spliceOut (l : List Nat) (x : Nat) : List Nat :=
    if l.contains x then l.erase x else l.dropLast

/-- The resolver's `forEach` over the snapshot produced by the filters; a
thrown TypeError aborts the pass (and the whole parse), reported as
`false`. -/
def resolveAll : GlobalState → List Nat → GlobalState × Bool
  | g, [] => (g, true)
  | g, ti :: rest =>
    match resolveOne g ti with
    | none => (g, false)
    | some g2 => resolveAll g2 rest

/-- `identifyAnonymousSynchronizers(threads)`: both filters run over the
finished thread list first (JavaScript `filter` materialises its result
before `forEach` runs), then each qualifying thread is resolved. -/
def identifyAnonymousSynchronizers (g : GlobalState) (threads : List Nat) :
    GlobalState × Bool :=
  resolveAll g (threads.filter (fun ti => qualifies g ti))

/-- `parseThreadDump`: split the document into lines, feed each line to
`parseLine`, then run the resolver once over this dump's thread list.  The
`Bool` records whether the invocation completed and delivered the dump to
the callback (`false` when the resolver threw). -/
def parseThreadDump (g : GlobalState) (text : String) :
    GlobalState × ThreadDump × Bool :=
  let lines := splitLines text.toList
  let (g, d) := lines.foldl (fun gd line => parseLine line gd) (g, {})
  let (g, ok) := identifyAnonymousSynchronizers g d.threads
  (g, d, ok)

/-- A parse from a fresh JavaScript module instance: empty heaps, no
current-thread cursor. -/
def parseDump (text : String) : GlobalState × ThreadDump × Bool :=
  parseThreadDump initState text

/-! ## Spec-side definitions for refinement claims -/

/-- An independent token-prefix test used only by the spec-side classifier:
the first `pre.length` characters of the token equal `pre`. -/
def specStarts (tok pre : String) : Bool :=
  decide (tok.toList.take pre.toList.length = pre.toList)

/-- Following the spec's words on status classification: first an exact-name
match against the enumeration's member names; on failure, prefix rules in
order — `BLOCKED`, `WAITING`, `TIME_WAITING` — otherwise UNKNOWN. -/
def specStatusClassification (s : String) : ThreadStatus :=
  match threadStatusExact s with
  | some st => st
  | none =>
    if specStarts s "BLOCKED" then .BLOCKED
    else if specStarts s "WAITING" then .WAITING
    else if specStarts s "TIME_WAITING" then .TIMED_WAITING
    else .UNKNOWN

lemma strStarts_eq_take (p : List Char) : ∀ l : List Char,
    strStarts l p = decide (l.take p.length = p) := by
  induction p with
  | nil => intro l; cases l <;> simp [strStarts]
  | cons q ps ih =>
    intro l
    cases l with
    | nil => simp [strStarts]
    | cons c cs =>
      simp only [strStarts, List.length_cons, List.take_succ_cons, ih cs]
      by_cases h : c = q
      · subst h; simp
      · simp [h]

lemma jsStartsWith_eq_specStarts (s p : String) :
    jsStartsWith s p = specStarts s p := by
  simp [jsStartsWith, specStarts, strStarts_eq_take]

/-! ## Claim theorems -/

/-- C7: for every raw state token, `stringToThreadStatus` agrees with the
spec's classification (exact-name match first, then the prefix rules
`BLOCKED`, `WAITING`, `TIME_WAITING` in order, else UNKNOWN); in particular
the token `TIMED_WAITING` is classified TIMED_WAITING already by the
exact-match lookup, so the prefix rules are not reached for it. -/
theorem C7_status_classification_matches_spec :
    (∀ s, stringToThreadStatus s = specStatusClassification s) ∧
    threadStatusExact "TIMED_WAITING" = some ThreadStatus.TIMED_WAITING ∧
    stringToThreadStatus "TIMED_WAITING" = ThreadStatus.TIMED_WAITING := by
  refine ⟨fun s => ?_, by decide, by decide⟩
  simp [stringToThreadStatus, specStatusClassification, jsStartsWith_eq_specStarts]

/-- C1: the claim says parsing never throws and that a BLOCKED / WAITING /
TIMED_WAITING thread with no wait-target and an empty classical-held-lock
list is silently skipped by the resolver.  The code instead reads
`classicalLocksHeld[0]` (which is `undefined`) and then writes
`lock.owner`, throwing a TypeError: on the document below — one thread in
state WAITING with no wait-target and no classical lock — the parse does
not complete (`false` in the final component), even though the thread
qualifies for the silent-skip case. -/
theorem C1_resolver_throws_on_lockless_waiting_thread :
    (parseDump "\"T\" nid=0x1\n   java.lang.Thread.State: WAITING").2.2 = false ∧
    (getThread (parseDump "\"T\" nid=0x1\n   java.lang.Thread.State: WAITING").1 0).status
      = some ThreadStatus.WAITING ∧
    (getThread (parseDump "\"T\" nid=0x1\n   java.lang.Thread.State: WAITING").1 0).lockWaitingFor
      = none ∧
    (getThread (parseDump "\"T\" nid=0x1\n   java.lang.Thread.State: WAITING").1 0).classicalLocksHeld
      = [] := by
  decide

/-- C4: the three-line scenario parses to one thread named `Thread-1` in
state RUNNABLE with exactly the one stack frame and an empty lock set — but
its numeric id is 0, not 1 as the claim states: the source computes
`parseInt("0x1", 10)`, and radix-10 parsing stops at the `x`, yielding 0. -/
theorem C4_scenario_parses_with_id_zero :
    (parseDump "\"Thread-1\" nid=0x1\n   java.lang.Thread.State: RUNNABLE\n   at com.example.Foo.bar(Foo.java:10)").1.threadHeap
      = [{ name := "Thread-1", id := some 0, status := some ThreadStatus.RUNNABLE,
           stackTrace := ["com.example.Foo.bar(Foo.java:10)"] }] ∧
    (parseDump "\"Thread-1\" nid=0x1\n   java.lang.Thread.State: RUNNABLE\n   at com.example.Foo.bar(Foo.java:10)").2.1
      = { threads := [0], locks := [] } ∧
    (parseDump "\"Thread-1\" nid=0x1\n   java.lang.Thread.State: RUNNABLE\n   at com.example.Foo.bar(Foo.java:10)").2.2
      = true ∧
    parseIntDec "0x1" = some 0 := by
  decide

/-- C2 counterexample: after two `waiting on` records for different lock
ids on the same thread, the parse completes, thread 0 is still in the first
lock's waiting set, but that lock is no longer its wait-target — membership
in a waiting set does not imply being the wait-target, refuting the claimed
bidirectional agreement. -/
theorem C2_waiting_set_not_bidirectional_cx :
    (parseDump "\"T\" nid=0x1\n   - waiting on <0x1> (a Foo)\n   - waiting on <0x2> (a Bar)").2.2 = true ∧
    0 ∈ (getLock (parseDump "\"T\" nid=0x1\n   - waiting on <0x1> (a Foo)\n   - waiting on <0x2> (a Bar)").1 0).waiting ∧
    (getThread (parseDump "\"T\" nid=0x1\n   - waiting on <0x1> (a Foo)\n   - waiting on <0x2> (a Bar)").1 0).lockWaitingFor
      ≠ some 0 ∧
    (getLock (parseDump "\"T\" nid=0x1\n   - waiting on <0x1> (a Foo)\n   - waiting on <0x2> (a Bar)").1 0).id
      = "0x1" := by
  decide

/-- C3 counterexample: when a `locked` record for a lock precedes a
`waiting on` record for the same lock id on the same thread, the parse
completes with that lock simultaneously in the thread's held set and as its
wait-target — held set and wait-target are not mutually exclusive. -/
theorem C3_held_and_waited_overlap_cx :
    (parseDump "\"T\" nid=0x1\n   java.lang.Thread.State: BLOCKED\n   - locked <0x1> (a Foo)\n   - waiting on <0x1> (a Foo)").2.2 = true ∧
    (getThread (parseDump "\"T\" nid=0x1\n   java.lang.Thread.State: BLOCKED\n   - locked <0x1> (a Foo)\n   - waiting on <0x1> (a Foo)").1 0).lockWaitingFor
      = some 0 ∧
    0 ∈ (getThread (parseDump "\"T\" nid=0x1\n   java.lang.Thread.State: BLOCKED\n   - locked <0x1> (a Foo)\n   - waiting on <0x1> (a Foo)").1 0).locksHeld := by
  decide

/-- C8 counterexample: parsing the same document twice in the same process
yields structurally different models.  The document's held-lock line
precedes its thread header; on a fresh module state the line is dropped (no
current thread), but on the second invocation the module-global
`currentThread` still points at the thread of the first invocation, so the
held-lock line creates a lock in the second dump: the first parse returns
an empty lock set, the second returns one lock. -/
theorem C8_reparse_differs_after_prior_parse_cx :
    (parseThreadDump initState "   - <0x1> (a Foo)\n\"T\" nid=0x1").2.1.locks.length = 0 ∧
    (parseThreadDump (parseThreadDump initState "   - <0x1> (a Foo)\n\"T\" nid=0x1").1
      "   - <0x1> (a Foo)\n\"T\" nid=0x1").2.1.locks.length = 1 ∧
    (parseThreadDump initState "   - <0x1> (a Foo)\n\"T\" nid=0x1").2.2 = true ∧
    (parseThreadDump (parseThreadDump initState "   - <0x1> (a Foo)\n\"T\" nid=0x1").1
      "   - <0x1> (a Foo)\n\"T\" nid=0x1").2.2 = true := by
  decide

/-- C10 counterexample: not every `locked` record overwrites the named
lock's owner.  Thread A locks `<0x1>`; thread B's `waiting on <0x1>` is
followed by B's `locked <0x1>`, which the spurious-release suppression
discards — after parsing, the owner of lock `<0x1>` is still thread 0
(named A), not thread 1 (named B), although B's `locked` record is the last
ownership record for that id. -/
theorem C10_suppressed_locked_record_keeps_owner_cx :
    (parseDump "\"A\" nid=0x1\n   - locked <0x1> (a Foo)\n\"B\" nid=0x2\n   - waiting on <0x1> (a Foo)\n   - locked <0x1> (a Foo)").2.2 = true ∧
    (getLock (parseDump "\"A\" nid=0x1\n   - locked <0x1> (a Foo)\n\"B\" nid=0x2\n   - waiting on <0x1> (a Foo)\n   - locked <0x1> (a Foo)").1 0).id = "0x1" ∧
    (getLock (parseDump "\"A\" nid=0x1\n   - locked <0x1> (a Foo)\n\"B\" nid=0x2\n   - waiting on <0x1> (a Foo)\n   - locked <0x1> (a Foo)").1 0).owner = some 0 ∧
    (getLock (parseDump "\"A\" nid=0x1\n   - locked <0x1> (a Foo)\n\"B\" nid=0x2\n   - waiting on <0x1> (a Foo)\n   - locked <0x1> (a Foo)").1 0).owner ≠ some 1 ∧
    (getThread (parseDump "\"A\" nid=0x1\n   - locked <0x1> (a Foo)\n\"B\" nid=0x2\n   - waiting on <0x1> (a Foo)\n   - locked <0x1> (a Foo)").1 0).name = "A" ∧
    (getThread (parseDump "\"A\" nid=0x1\n   - locked <0x1> (a Foo)\n\"B\" nid=0x2\n   - waiting on <0x1> (a Foo)\n   - locked <0x1> (a Foo)").1 1).name = "B" ∧
    (getThread (parseDump "\"A\" nid=0x1\n   - locked <0x1> (a Foo)\n\"B\" nid=0x2\n   - waiting on <0x1> (a Foo)\n   - locked <0x1> (a Foo)").1 1).lockWaitingFor = some 0 := by
  decide


/-! ## Heap access lemmas -/

lemma getLock_oob (g : GlobalState) (li : Nat) (h : g.lockHeap.length ≤ li) :
    getLock g li = default := by
  unfold getLock
  exact List.getD_eq_default _ _ h

lemma lt_of_getLock_id_ne (g : GlobalState) (li : Nat)
    (h : (getLock g li).id ≠ "") : li < g.lockHeap.length := by
  by_contra hge
  exact h (by rw [getLock_oob g li (Nat.le_of_not_lt hge)]; rfl)

lemma getThread_modifyLock (g : GlobalState) (i : Nat) (f : Lock → Lock) (ti : Nat) :
    getThread (modifyLock g i f) ti = getThread g ti := rfl

lemma getLock_modifyThread (g : GlobalState) (i : Nat) (f : Thread → Thread) (li : Nat) :
    getLock (modifyThread g i f) li = getLock g li := rfl

lemma getLock_modifyLock_self (g : GlobalState) (i : Nat) (f : Lock → Lock)
    (h : i < g.lockHeap.length) : getLock (modifyLock g i f) i = f (getLock g i) := by
  simp [getLock, modifyLock, List.getD_eq_getElem?_getD, List.getElem?_set_self h]

lemma getLock_modifyLock_ne (g : GlobalState) (i : Nat) (f : Lock → Lock) (j : Nat)
    (h : i ≠ j) : getLock (modifyLock g i f) j = getLock g j := by
  simp [getLock, modifyLock, List.getD_eq_getElem?_getD, List.getElem?_set_ne h]

lemma getThread_modifyThread_self (g : GlobalState) (i : Nat) (f : Thread → Thread)
    (h : i < g.threadHeap.length) : getThread (modifyThread g i f) i = f (getThread g i) := by
  simp [getThread, modifyThread, List.getD_eq_getElem?_getD, List.getElem?_set_self h]

lemma getThread_modifyThread_ne (g : GlobalState) (i : Nat) (f : Thread → Thread) (j : Nat)
    (h : i ≠ j) : getThread (modifyThread g i f) j = getThread g j := by
  simp [getThread, modifyThread, List.getD_eq_getElem?_getD, List.getElem?_set_ne h]

lemma getThread_eq_of_heap_eq (g1 g : GlobalState) (i : Nat)
    (h : g1.threadHeap = g.threadHeap) : getThread g1 i = getThread g i := by
  unfold getThread; rw [h]

lemma getLock_append_lt (g : GlobalState) (nl : Lock) (li : Nat)
    (h : li < g.lockHeap.length) :
    getLock { g with lockHeap := g.lockHeap ++ [nl] } li = getLock g li := by
  unfold getLock
  exact List.getD_append _ _ _ _ h

lemma getLock_append_self (g : GlobalState) (nl : Lock) :
    getLock { g with lockHeap := g.lockHeap ++ [nl] } g.lockHeap.length = nl := by
  simp [getLock, List.getD_eq_getElem?_getD, List.getElem?_append_right]

lemma getOrCreateLock_threadHeap (g : GlobalState) (d : ThreadDump) (id cn : String) :
    (getOrCreateLock g d id cn).1.threadHeap = g.threadHeap := by
  unfold getOrCreateLock
  cases findLockIdx g d.locks id <;> rfl

lemma getOrCreateLock_current (g : GlobalState) (d : ThreadDump) (id cn : String) :
    (getOrCreateLock g d id cn).1.currentThread = g.currentThread := by
  unfold getOrCreateLock
  cases findLockIdx g d.locks id <;> rfl

lemma getOrCreateLock_li_lt (g : GlobalState) (d : ThreadDump) (id cn : String)
    (hid : id ≠ "") :
    (getOrCreateLock g d id cn).2.2 < (getOrCreateLock g d id cn).1.lockHeap.length := by
  unfold getOrCreateLock
  cases h : findLockIdx g d.locks id with
  | none => simp
  | some li =>
    have hp := List.find?_some h
    have : (getLock g li).id = id := by simpa using hp
    exact lt_of_getLock_id_ne g li (this ▸ hid)

/-! ## Matcher facts -/

lemma takeWhile_ne_nil_of_head {p : Char → Bool} {l : List Char}
    (h : ∃ hl : 0 < l.length, p l[0] = true) : l.takeWhile p ≠ [] := by
  obtain ⟨hl, hp⟩ := h
  cases l with
  | nil => simp at hl
  | cons a as =>
    simp only [List.getElem_cons_zero] at hp
    simp [List.takeWhile_cons, hp]

lemma syncTail_id_nonempty (r : List Char) (idCs cl : List Char)
    (h : syncTail r = some (idCs, cl)) : idCs ≠ [] := by
  unfold syncTail at h
  repeat' split at h
  all_goals try simp at h
  all_goals
    obtain ⟨hex, hcl, hid⟩ := h
    rw [← hid]
    exact takeWhile_ne_nil_of_head hex

lemma syncVerbScan_id_nonempty (r : List Char) : ∀ acc verbCs idCs cl,
    syncVerbScan acc r = some (verbCs, idCs, cl) → idCs ≠ [] := by
  induction r with
  | nil =>
    intro acc verbCs idCs cl h
    simp [syncVerbScan, syncTail] at h
  | cons c cs ih =>
    intro acc verbCs idCs cl h
    unfold syncVerbScan at h
    split at h
    · rename_i idCs2 cl2 hp
      cases h
      exact syncTail_id_nonempty _ _ _ hp
    · split at h
      · exact ih _ _ _ _ h
      · simp at h

lemma matchSyncStatus_id_nonempty (line : List Char) (verbCs idCs cl : List Char)
    (h : matchSyncStatus line = some (verbCs, idCs, cl)) : idCs ≠ [] := by
  unfold matchSyncStatus at h
  split at h
  · simp at h
  · split at h
    · exact syncVerbScan_id_nonempty _ _ _ _ _ h
    · simp at h

lemma matchHeldLock_id_nonempty (line : List Char) (idCs cl : List Char)
    (h : matchHeldLock line = some (idCs, cl)) : idCs ≠ [] := by
  unfold matchHeldLock at h
  repeat' split at h
  all_goals try simp at h
  all_goals
    obtain ⟨hex, hcl, hid⟩ := h
    rw [← hid]
    exact takeWhile_ne_nil_of_head hex

lemma stringMk_ne_empty (l : List Char) (h : l ≠ []) : String.mk l ≠ "" := by
  intro he
  exact h (congrArg String.data he)

lemma find?_split {α : Type} (p : α → Bool) (l : List α) (a : α)
    (h : List.find? p l = some a) :
    ∃ pre post, l = pre ++ a :: post ∧ ∀ x ∈ pre, p x = false := by
  induction l with
  | nil => simp at h
  | cons b bs ih =>
    by_cases hb : p b
    · rw [List.find?_cons_of_pos _ hb] at h
      cases h
      exact ⟨[], bs, rfl, by simp⟩
    · rw [List.find?_cons_of_neg _ (by simpa using hb)] at h
      obtain ⟨pre, post, heq, hpre⟩ := ih h
      exact ⟨b :: pre, post, by rw [heq]; rfl, by
        intro x hx
        rcases List.mem_cons.mp hx with hx | hx
        · subst hx; simpa using hb
        · exact hpre x hx⟩

/-! ## Record-operation specifications -/

lemma heldLockRecord_spec (g : GlobalState) (d : ThreadDump) (id cn : String) (cur : Nat)
    (hcv : cur < g.threadHeap.length) (hid : id ≠ "") :
    (heldLockRecord id cn cur g d).2 = (getOrCreateLock g d id cn).2.1 ∧
    (getLock (heldLockRecord id cn cur g d).1 (getOrCreateLock g d id cn).2.2).owner
      = some cur ∧
    (getThread (heldLockRecord id cn cur g d).1 cur).locksHeld
      = (getThread g cur).locksHeld ++ [(getOrCreateLock g d id cn).2.2] ∧
    (getThread (heldLockRecord id cn cur g d).1 cur).classicalLocksHeld
      = (getThread g cur).classicalLocksHeld ∧
    (∀ j, j ≠ cur → getThread (heldLockRecord id cn cur g d).1 j = getThread g j) := by
  have hth := getOrCreateLock_threadHeap g d id cn
  have hli := getOrCreateLock_li_lt g d id cn hid
  rcases hgc : getOrCreateLock g d id cn with ⟨g1, d1, li⟩
  rw [hgc] at hth hli
  have hg1 : ∀ i, getThread g1 i = getThread g i :=
    fun i => getThread_eq_of_heap_eq g1 g i hth
  have hcv1 : cur < g1.threadHeap.length := hth ▸ hcv
  unfold heldLockRecord
  rw [hgc]
  dsimp only at hli ⊢
  have hcv2 : cur < (modifyLock g1 li (fun l => { l with owner := some cur })).threadHeap.length := hcv1
  refine ⟨rfl, ?_, ?_, ?_, ?_⟩
  · rw [getLock_modifyThread, getLock_modifyLock_self g1 li _ hli]
  · rw [getThread_modifyThread_self _ cur _ hcv2, getThread_modifyLock, hg1]
  · rw [getThread_modifyThread_self _ cur _ hcv2, getThread_modifyLock, hg1]
  · intro j hj
    rw [getThread_modifyThread_ne _ cur _ j (fun he => hj he.symm), getThread_modifyLock, hg1]

lemma lockedRecord_spec (g : GlobalState) (d : ThreadDump) (id cn : String) (cur : Nat)
    (hcv : cur < g.threadHeap.length) (hid : id ≠ "") :
    (lockedRecord id cn cur g d).2 = (getOrCreateLock g d id cn).2.1 ∧
    (getLock (lockedRecord id cn cur g d).1 (getOrCreateLock g d id cn).2.2).owner
      = some cur ∧
    (getThread (lockedRecord id cn cur g d).1 cur).locksHeld
      = (getThread g cur).locksHeld ++ [(getOrCreateLock g d id cn).2.2] ∧
    (getThread (lockedRecord id cn cur g d).1 cur).classicalLocksHeld
      = (getThread g cur).classicalLocksHeld ++ [(getOrCreateLock g d id cn).2.2] ∧
    (∀ j, j ≠ cur → getThread (lockedRecord id cn cur g d).1 j = getThread g j) := by
  have hth := getOrCreateLock_threadHeap g d id cn
  have hli := getOrCreateLock_li_lt g d id cn hid
  rcases hgc : getOrCreateLock g d id cn with ⟨g1, d1, li⟩
  rw [hgc] at hth hli
  have hg1 : ∀ i, getThread g1 i = getThread g i :=
    fun i => getThread_eq_of_heap_eq g1 g i hth
  have hcv1 : cur < g1.threadHeap.length := hth ▸ hcv
  unfold lockedRecord
  rw [hgc]
  dsimp only at hli ⊢
  have hcv2 : cur < (modifyLock g1 li (fun l => { l with owner := some cur })).threadHeap.length := hcv1
  refine ⟨rfl, ?_, ?_, ?_, ?_⟩
  · rw [getLock_modifyThread, getLock_modifyLock_self g1 li _ hli]
  · rw [getThread_modifyThread_self _ cur _ hcv2, getThread_modifyLock, hg1]
  · rw [getThread_modifyThread_self _ cur _ hcv2, getThread_modifyLock, hg1]
  · intro j hj
    rw [getThread_modifyThread_ne _ cur _ j (fun he => hj he.symm), getThread_modifyLock, hg1]

/-- C6: a `locked` synchronization-status record whose lock id equals the
id of the current thread's existing wait-target is discarded with no state
change at all: no lock is fetched or created, no held-list entry is added,
and the wait-target is untouched (spurious-release suppression). -/
theorem C6_spurious_release_suppression
    (g : GlobalState) (d : ThreadDump) (line : List Char) (cur wi : Nat)
    (verbCs lockIdCs classNameCs : List Char)
    (hcur : g.currentThread = some cur)
    (hframe : matchOneD (matchFrame line) = "")
    (hstate : matchOneD (matchThreadState line) = "")
    (hsync : matchSyncStatus line = some (verbCs, lockIdCs, classNameCs))
    (hverb : String.mk verbCs = "locked")
    (hwait : (getThread g cur).lockWaitingFor = some wi)
    (hid : (getLock g wi).id = String.mk lockIdCs) :
    parseStackLine line g d = (g, d) := by
  simp [parseStackLine, hcur, hframe, hstate, hsync, hverb, hwait, hid]

/-- Witness for C6 at a concrete state and line. -/
theorem C6_spurious_release_suppression_witness :
    parseStackLine "   - locked <0x1> (a Foo)".toList
      { threadHeap := [{ lockWaitingFor := some 0 }],
        lockHeap := [{ id := "0x1", className := "Foo", waiting := [0] }],
        currentThread := some 0 }
      { threads := [0], locks := [0] }
      = ({ threadHeap := [{ lockWaitingFor := some 0 }],
           lockHeap := [{ id := "0x1", className := "Foo", waiting := [0] }],
           currentThread := some 0 },
         { threads := [0], locks := [0] }) :=
  C6_spurious_release_suppression _ _ _ 0 0
    "locked".toList "0x1".toList "Foo".toList
    rfl (by decide) (by decide) (by decide) rfl (by decide) (by decide)

/-- C3 (amended): the held set / wait-target exclusion is enforced in one
direction only — while a thread's wait-target has a given lock id, a
`locked` record for that id adds nothing to the held lists and leaves the
wait-target in place. -/
theorem C3_wait_first_exclusion
    (g : GlobalState) (d : ThreadDump) (line : List Char) (cur wi : Nat)
    (verbCs lockIdCs classNameCs : List Char)
    (hcur : g.currentThread = some cur)
    (hframe : matchOneD (matchFrame line) = "")
    (hstate : matchOneD (matchThreadState line) = "")
    (hsync : matchSyncStatus line = some (verbCs, lockIdCs, classNameCs))
    (hverb : String.mk verbCs = "locked")
    (hwait : (getThread g cur).lockWaitingFor = some wi)
    (hid : (getLock g wi).id = String.mk lockIdCs) :
    (getThread (parseStackLine line g d).1 cur).locksHeld
      = (getThread g cur).locksHeld ∧
    (getThread (parseStackLine line g d).1 cur).classicalLocksHeld
      = (getThread g cur).classicalLocksHeld ∧
    (getThread (parseStackLine line g d).1 cur).lockWaitingFor = some wi := by
  have hred : parseStackLine line g d = (g, d) := by
    simp [parseStackLine, hcur, hframe, hstate, hsync, hverb, hwait, hid]
  rw [hred]
  exact ⟨rfl, rfl, hwait⟩

/-- Witness for C3's amended theorem at a concrete state and line. -/
theorem C3_wait_first_exclusion_witness :
    (getThread (parseStackLine "   - locked <0x1> (a Foo)".toList
      { threadHeap := [{ lockWaitingFor := some 0 }],
        lockHeap := [{ id := "0x1", className := "Foo", waiting := [0] }],
        currentThread := some 0 }
      { threads := [0], locks := [0] }).1 0).lockWaitingFor = some 0 :=
  (C3_wait_first_exclusion _ _ _ 0 0 "locked".toList "0x1".toList "Foo".toList
    rfl (by decide) (by decide) (by decide) rfl (by decide) (by decide)).2.2

/-- C9: a held-lock record (the verb-less `- <id> (a class)` form) with a
current thread fetches-or-creates the named lock, marks the current thread
as its owner, and appends the lock to the thread's held-lock list but not
to its classical-held sublist. -/
theorem C9_held_lock_record_effects
    (g : GlobalState) (d : ThreadDump) (line : List Char) (cur : Nat)
    (lockIdCs classNameCs : List Char)
    (hcur : g.currentThread = some cur)
    (hcv : cur < g.threadHeap.length)
    (hframe : matchOneD (matchFrame line) = "")
    (hstate : matchOneD (matchThreadState line) = "")
    (hsync : matchSyncStatus line = none)
    (hheld : matchHeldLock line = some (lockIdCs, classNameCs)) :
    (parseStackLine line g d).2
      = (getOrCreateLock g d (String.mk lockIdCs) (String.mk classNameCs)).2.1 ∧
    (getLock (parseStackLine line g d).1
        (getOrCreateLock g d (String.mk lockIdCs) (String.mk classNameCs)).2.2).owner
      = some cur ∧
    (getThread (parseStackLine line g d).1 cur).locksHeld
      = (getThread g cur).locksHeld
          ++ [(getOrCreateLock g d (String.mk lockIdCs) (String.mk classNameCs)).2.2] ∧
    (getThread (parseStackLine line g d).1 cur).classicalLocksHeld
      = (getThread g cur).classicalLocksHeld := by
  have hid := stringMk_ne_empty _ (matchHeldLock_id_nonempty line lockIdCs classNameCs hheld)
  have hred : parseStackLine line g d
      = heldLockRecord (String.mk lockIdCs) (String.mk classNameCs) cur g d := by
    simp [parseStackLine, hcur, hframe, hstate, hsync, hheld]
  rw [hred]
  obtain ⟨h1, h2, h3, h4, h5⟩ := heldLockRecord_spec g d _ _ cur hcv hid
  exact ⟨h1, h2, h3, h4⟩

/-- Witness for C9 at a concrete state and line. -/
theorem C9_held_lock_record_effects_witness :
    (getLock (parseStackLine "   - <0x1> (a Foo)".toList
        { threadHeap := [{}], currentThread := some 0 } {}).1
      (getOrCreateLock { threadHeap := [{}], currentThread := some 0 } {} "0x1" "Foo").2.2).owner
      = some 0 :=
  (C9_held_lock_record_effects _ _ _ 0 "0x1".toList "Foo".toList
    rfl (by decide) (by decide) (by decide) (by decide) (by decide)).2.1

/-- C10 (amended): every held-lock record, and every `locked` record not
discarded by the spurious-release suppression, unconditionally overwrites
the named lock's owner with the current thread — regardless of any
previously recorded owner — while every other thread's state (in
particular a previous owner's held list) is untouched. -/
theorem C10_ownership_overwrite :
    (∀ (g : GlobalState) (d : ThreadDump) (line : List Char) (cur : Nat)
       (verbCs lockIdCs classNameCs : List Char),
       g.currentThread = some cur →
       cur < g.threadHeap.length →
       matchOneD (matchFrame line) = "" →
       matchOneD (matchThreadState line) = "" →
       matchSyncStatus line = some (verbCs, lockIdCs, classNameCs) →
       String.mk verbCs = "locked" →
       (∀ wi, (getThread g cur).lockWaitingFor = some wi →
          (getLock g wi).id ≠ String.mk lockIdCs) →
       (getLock (parseStackLine line g d).1
           (getOrCreateLock g d (String.mk lockIdCs) (String.mk classNameCs)).2.2).owner
         = some cur ∧
       (∀ j, j ≠ cur → getThread (parseStackLine line g d).1 j = getThread g j)) ∧
    (∀ (g : GlobalState) (d : ThreadDump) (line : List Char) (cur : Nat)
       (lockIdCs classNameCs : List Char),
       g.currentThread = some cur →
       cur < g.threadHeap.length →
       matchOneD (matchFrame line) = "" →
       matchOneD (matchThreadState line) = "" →
       matchSyncStatus line = none →
       matchHeldLock line = some (lockIdCs, classNameCs) →
       (getLock (parseStackLine line g d).1
           (getOrCreateLock g d (String.mk lockIdCs) (String.mk classNameCs)).2.2).owner
         = some cur ∧
       (∀ j, j ≠ cur → getThread (parseStackLine line g d).1 j = getThread g j)) := by
  constructor
  · intro g d line cur verbCs lockIdCs classNameCs hcur hcv hframe hstate hsync hverb hnosup
    have hid := stringMk_ne_empty _
      (matchSyncStatus_id_nonempty line verbCs lockIdCs classNameCs hsync)
    have hred : parseStackLine line g d
        = lockedRecord (String.mk lockIdCs) (String.mk classNameCs) cur g d := by
      cases hw : (getThread g cur).lockWaitingFor with
      | none => simp [parseStackLine, hcur, hframe, hstate, hsync, hverb, hw]
      | some wi => simp [parseStackLine, hcur, hframe, hstate, hsync, hverb, hw, hnosup wi hw]
    rw [hred]
    obtain ⟨h1, h2, h3, h4, h5⟩ := lockedRecord_spec g d _ _ cur hcv hid
    exact ⟨h2, h5⟩
  · intro g d line cur lockIdCs classNameCs hcur hcv hframe hstate hsync hheld
    have hid := stringMk_ne_empty _ (matchHeldLock_id_nonempty line lockIdCs classNameCs hheld)
    have hred : parseStackLine line g d
        = heldLockRecord (String.mk lockIdCs) (String.mk classNameCs) cur g d := by
      simp [parseStackLine, hcur, hframe, hstate, hsync, hheld]
    rw [hred]
    obtain ⟨h1, h2, h3, h4, h5⟩ := heldLockRecord_spec g d _ _ cur hcv hid
    exact ⟨h2, h5⟩

/-- Witness for C10's amended theorem: a `locked` record on a lock already
owned by another thread transfers ownership to the current thread. -/
theorem C10_ownership_overwrite_witness :
    (getLock (parseStackLine "   - locked <0x1> (a Foo)".toList
        { threadHeap := [{}, {}],
          lockHeap := [{ id := "0x1", className := "Foo", owner := some 0 }],
          currentThread := some 1 }
        { threads := [0, 1], locks := [0] }).1
      (getOrCreateLock
        { threadHeap := [{}, {}],
          lockHeap := [{ id := "0x1", className := "Foo", owner := some 0 }],
          currentThread := some 1 }
        { threads := [0, 1], locks := [0] } "0x1" "Foo").2.2).owner = some 1 :=
  (C10_ownership_overwrite.1 _ _ _ 1 "locked".toList "0x1".toList "Foo".toList
    rfl (by decide) (by decide) (by decide) (by decide) rfl
    (fun wi hw => Option.noConfusion hw)).1

/-- C5: within one dump the lock registry's fetch-or-create is idempotent
by identity key — a second call with the same id (and any class name)
returns the same state and the same lock, which is the first lock with that
id in the dump's lock list; a newly created lock is appended with the given
id and class name, owner unset and waiting set empty. -/
theorem C5_getOrCreateLock_idempotent
    (g : GlobalState) (d : ThreadDump) (id cn cn2 : String)
    (hv : ∀ li ∈ d.locks, li < g.lockHeap.length) :
    getOrCreateLock (getOrCreateLock g d id cn).1 (getOrCreateLock g d id cn).2.1 id cn2
      = getOrCreateLock g d id cn ∧
    (getLock (getOrCreateLock g d id cn).1 (getOrCreateLock g d id cn).2.2).id = id ∧
    (∃ pre post,
      (getOrCreateLock g d id cn).2.1.locks
        = pre ++ (getOrCreateLock g d id cn).2.2 :: post ∧
      ∀ x ∈ pre, (getLock (getOrCreateLock g d id cn).1 x).id ≠ id) ∧
    (findLockIdx g d.locks id = none →
      (getOrCreateLock g d id cn).1.lockHeap
        = g.lockHeap ++ [{ id := id, className := cn }] ∧
      (getOrCreateLock g d id cn).2.1.locks = d.locks ++ [g.lockHeap.length] ∧
      (getOrCreateLock g d id cn).2.2 = g.lockHeap.length) := by
  cases h : findLockIdx g d.locks id with
  | some li =>
    have hres : getOrCreateLock g d id cn = (g, d, li) := by
      simp [getOrCreateLock, h]
    have hbeq := List.find?_some h
    have hideq : (getLock g li).id = id := by simpa using hbeq
    obtain ⟨pre, post, hsplit, hpre⟩ := find?_split _ _ _ h
    refine ⟨?_, ?_, ?_, ?_⟩
    · rw [hres]; simp [getOrCreateLock, h]
    · rw [hres]; exact hideq
    · rw [hres]
      refine ⟨pre, post, hsplit, ?_⟩
      intro x hx he
      have hf := hpre x hx
      rw [he] at hf
      simp at hf
    · intro hn
      exact Option.noConfusion hn
  | none =>
    have hres : getOrCreateLock g d id cn =
        ({ g with lockHeap := g.lockHeap ++ [{ id := id, className := cn }] },
         { d with locks := d.locks ++ [g.lockHeap.length] }, g.lockHeap.length) := by
      simp [getOrCreateLock, h]
    have hpre : ∀ x ∈ d.locks,
        ((getLock { g with lockHeap := g.lockHeap ++ [{ id := id, className := cn }] } x).id
          == id) = false := by
      intro x hx
      rw [getLock_append_lt g _ x (hv x hx)]
      have hf := List.find?_eq_none.mp h x hx
      simpa using hf
    have hfind2 : findLockIdx
        { g with lockHeap := g.lockHeap ++ [{ id := id, className := cn }] }
        (d.locks ++ [g.lockHeap.length]) id = some g.lockHeap.length := by
      unfold findLockIdx
      rw [List.find?_append]
      have h1 : List.find?
          (fun li => (getLock { g with lockHeap := g.lockHeap ++ [{ id := id, className := cn }] } li).id == id)
          d.locks = none :=
        List.find?_eq_none.mpr (fun x hx => by simp [hpre x hx])
      have h2 : ((getLock { g with lockHeap := g.lockHeap ++ [{ id := id, className := cn }] }
          g.lockHeap.length).id == id) = true := by
        rw [getLock_append_self]
        simp
      rw [h1]
      simp only [Option.none_or]
      simp [List.find?, h2]
    refine ⟨?_, ?_, ?_, ?_⟩
    · rw [hres]
      simp [getOrCreateLock, hfind2]
    · rw [hres]
      dsimp only
      rw [getLock_append_self]
    · rw [hres]
      refine ⟨d.locks, [], rfl, ?_⟩
      intro x hx he
      have hf := hpre x hx
      rw [he] at hf
      simp at hf
    · intro _
      rw [hres]
      exact ⟨rfl, rfl, rfl⟩

/-- Witness for C5 on a fresh dump: the create-then-fetch round trip. -/
theorem C5_getOrCreateLock_idempotent_witness :
    getOrCreateLock (getOrCreateLock initState {} "0x1" "Foo").1
        (getOrCreateLock initState {} "0x1" "Foo").2.1 "0x1" "Bar"
      = getOrCreateLock initState {} "0x1" "Foo" :=
  (C5_getOrCreateLock_idempotent initState {} "0x1" "Foo" "Bar"
    (fun li h => absurd h (List.not_mem_nil li))).1

/-! ## The waiting-set invariant

The forward half of the spec's bidirectional-agreement invariant: a
thread's wait-target always lists the thread in its waiting set.  It is
preserved by every line record and by the resolver, starting from the empty
module state. -/

/-- Every thread's wait-target lock lists that thread in its waiting set. -/
def WaitInv (g : GlobalState) : Prop :=
  ∀ ti li, (getThread g ti).lockWaitingFor = some li → ti ∈ (getLock g li).waiting

/-- Every classical-held entry is a valid lock-heap index. -/
def ClassBound (g : GlobalState) : Prop :=
  ∀ ti li, li ∈ (getThread g ti).classicalLocksHeld → li < g.lockHeap.length

/-- Every lock listed in the dump is a valid lock-heap index. -/
def DumpBound (g : GlobalState) (d : ThreadDump) : Prop :=
  ∀ li ∈ d.locks, li < g.lockHeap.length

def Inv (g : GlobalState) (d : ThreadDump) : Prop :=
  WaitInv g ∧ ClassBound g ∧ DumpBound g d

lemma waitInv_target_lt (g : GlobalState) (hw : WaitInv g) (ti li : Nat)
    (h : (getThread g ti).lockWaitingFor = some li) : li < g.lockHeap.length := by
  by_contra hge
  have hm := hw ti li h
  rw [getLock_oob g li (Nat.le_of_not_lt hge)] at hm
  exact List.not_mem_nil ti hm

lemma modifyThread_oob (g : GlobalState) (i : Nat) (f : Thread → Thread)
    (h : g.threadHeap.length ≤ i) : modifyThread g i f = g := by
  unfold modifyThread
  rw [List.set_eq_of_length_le h]

lemma modifyLock_oob (g : GlobalState) (i : Nat) (f : Lock → Lock)
    (h : g.lockHeap.length ≤ i) : modifyLock g i f = g := by
  unfold modifyLock
  rw [List.set_eq_of_length_le h]

lemma modifyLock_length (g : GlobalState) (i : Nat) (f : Lock → Lock) :
    (modifyLock g i f).lockHeap.length = g.lockHeap.length := by
  simp [modifyLock]

lemma modifyThread_lockHeap (g : GlobalState) (i : Nat) (f : Thread → Thread) :
    (modifyThread g i f).lockHeap = g.lockHeap := rfl

lemma getThread_modifyThread_keep (g : GlobalState) (i : Nat) (f : Thread → Thread)
    (ti : Nat) {π : Thread → α}
    (hf : ∀ t, π (f t) = π t) : π (getThread (modifyThread g i f) ti) = π (getThread g ti) := by
  by_cases hi : i < g.threadHeap.length
  · by_cases hti : ti = i
    · subst hti
      rw [getThread_modifyThread_self _ _ _ hi, hf]
    · rw [getThread_modifyThread_ne _ _ _ _ (fun he => hti he.symm)]
  · rw [modifyThread_oob _ _ _ (Nat.le_of_not_lt hi)]

lemma waitInv_modifyThread (g : GlobalState) (i : Nat) (f : Thread → Thread)
    (hf : ∀ t, (f t).lockWaitingFor = t.lockWaitingFor)
    (h : WaitInv g) : WaitInv (modifyThread g i f) := by
  intro ti li h3
  have hkeep := getThread_modifyThread_keep g i f ti (π := Thread.lockWaitingFor) hf
  rw [hkeep] at h3
  exact h ti li h3

lemma classBound_modifyThread (g : GlobalState) (i : Nat) (f : Thread → Thread)
    (hf : ∀ t, (f t).classicalLocksHeld = t.classicalLocksHeld)
    (h : ClassBound g) : ClassBound (modifyThread g i f) := by
  intro ti li h3
  have hkeep := getThread_modifyThread_keep g i f ti (π := Thread.classicalLocksHeld) hf
  rw [hkeep] at h3
  exact h ti li h3

lemma waitInv_modifyLock (g : GlobalState) (li : Nat) (f : Lock → Lock)
    (hf : ∀ l x, x ∈ l.waiting → x ∈ (f l).waiting)
    (h : WaitInv g) : WaitInv (modifyLock g li f) := by
  intro ti lj h3
  have h3g : (getThread g ti).lockWaitingFor = some lj := h3
  have hm := h ti lj h3g
  by_cases hli : li < g.lockHeap.length
  · by_cases he : lj = li
    · subst he
      rw [show getLock (modifyLock g lj f) lj = f (getLock g lj) from
          getLock_modifyLock_self g lj f hli]
      exact hf _ _ hm
    · rw [getLock_modifyLock_ne g li f lj (fun hx => he hx.symm)]
      exact hm
  · rw [modifyLock_oob g li f (Nat.le_of_not_lt hli)]
    exact hm

lemma classBound_modifyLock (g : GlobalState) (li : Nat) (f : Lock → Lock)
    (h : ClassBound g) : ClassBound (modifyLock g li f) := by
  intro ti lj h3
  rw [modifyLock_length]
  exact h ti lj h3

lemma dumpBound_modifyLock (g : GlobalState) (d : ThreadDump) (li : Nat) (f : Lock → Lock)
    (h : DumpBound g d) : DumpBound (modifyLock g li f) d := by
  intro lj hj
  rw [modifyLock_length]
  exact h lj hj

lemma getOrCreateLock_inv (g : GlobalState) (d : ThreadDump) (id cn : String)
    (h : Inv g d) :
    Inv (getOrCreateLock g d id cn).1 (getOrCreateLock g d id cn).2.1 ∧
    (getOrCreateLock g d id cn).2.2 < (getOrCreateLock g d id cn).1.lockHeap.length ∧
    g.lockHeap.length ≤ (getOrCreateLock g d id cn).1.lockHeap.length ∧
    (getOrCreateLock g d id cn).1.threadHeap = g.threadHeap ∧
    (∀ lj, lj < g.lockHeap.length →
      getLock (getOrCreateLock g d id cn).1 lj = getLock g lj) := by
  obtain ⟨hw, hc, hd⟩ := h
  unfold getOrCreateLock
  cases hf : findLockIdx g d.locks id with
  | some li =>
    refine ⟨⟨hw, hc, hd⟩, ?_, Nat.le_refl _, rfl, fun lj _ => rfl⟩
    exact hd li (List.mem_of_find?_eq_some hf)
  | none =>
    dsimp only
    refine ⟨⟨?_, ?_, ?_⟩, ?_, ?_, rfl, ?_⟩
    · intro ti li h3
      have hlt := waitInv_target_lt g hw ti li h3
      rw [getLock_append_lt g _ li hlt]
      exact hw ti li h3
    · intro ti li h3
      have := hc ti li h3
      simp only [List.length_append, List.length_cons, List.length_nil]
      omega
    · intro li hli
      simp only [List.length_append, List.length_cons, List.length_nil]
      rcases List.mem_append.mp hli with hli | hli
      · have := hd li hli
        omega
      · simp only [List.mem_singleton] at hli
        omega
    · simp
    · simp
    · intro lj hj
      exact getLock_append_lt g _ lj hj

lemma waitingRecord_inv (g : GlobalState) (d : ThreadDump) (id cn : String) (cur : Nat)
    (h : Inv g d) :
    Inv (waitingRecord id cn cur g d).1 (waitingRecord id cn cur g d).2 := by
  obtain ⟨⟨hw1, hc1, hd1⟩, hlt, hmono, hth, hpres⟩ := getOrCreateLock_inv g d id cn h
  rcases hgc : getOrCreateLock g d id cn with ⟨g1, d1, li⟩
  rw [hgc] at hlt hmono hth hpres
  dsimp only at hlt hmono hth hpres
  rw [hgc] at hw1 hc1 hd1
  dsimp only at hw1 hc1 hd1
  unfold waitingRecord
  rw [hgc]
  dsimp only
  set g2 := modifyLock g1 li (fun l => { l with waiting := l.waiting ++ [cur] }) with hg2
  have hw2 : WaitInv g2 :=
    waitInv_modifyLock g1 li _ (fun l x hx => List.mem_append_left _ hx) hw1
  have hc2 : ClassBound g2 := classBound_modifyLock g1 li _ hc1
  have hd2 : DumpBound g2 d1 := dumpBound_modifyLock g1 d1 li _ hd1
  have hlen2 : g2.lockHeap.length = g1.lockHeap.length := modifyLock_length g1 li _
  refine ⟨?_, ?_, ?_⟩
  · intro ti lj h3
    by_cases hcl : cur < g2.threadHeap.length
    · by_cases hti : ti = cur
      · subst hti
        rw [getThread_modifyThread_self g2 ti _ hcl] at h3
        simp only at h3
        cases h3
        rw [getLock_modifyThread]
        have hli2 : li < g2.lockHeap.length := by rw [hlen2]; exact hlt
        rw [hg2, getLock_modifyLock_self g1 li _ hlt]
        exact List.mem_append_right _ (List.mem_singleton.mpr rfl)
      · rw [getThread_modifyThread_ne g2 cur _ ti (fun he => hti he.symm)] at h3
        rw [getLock_modifyThread]
        exact hw2 ti lj h3
    · rw [modifyThread_oob g2 cur _ (Nat.le_of_not_lt hcl)] at h3 ⊢
      exact hw2 ti lj h3
  · refine classBound_modifyThread g2 cur _ (fun t => rfl) hc2
  · intro lj hj
    rw [modifyThread_lockHeap, modifyLock_length]
    exact hd1 lj hj

lemma lockedRecord_inv (g : GlobalState) (d : ThreadDump) (id cn : String) (cur : Nat)
    (h : Inv g d) :
    Inv (lockedRecord id cn cur g d).1 (lockedRecord id cn cur g d).2 := by
  obtain ⟨⟨hw1, hc1, hd1⟩, hlt, hmono, hth, hpres⟩ := getOrCreateLock_inv g d id cn h
  rcases hgc : getOrCreateLock g d id cn with ⟨g1, d1, li⟩
  rw [hgc] at hlt hmono hth hpres
  dsimp only at hlt hmono hth hpres
  rw [hgc] at hw1 hc1 hd1
  dsimp only at hw1 hc1 hd1
  unfold lockedRecord
  rw [hgc]
  dsimp only
  set g2 := modifyLock g1 li (fun l => { l with owner := some cur }) with hg2
  have hw2 : WaitInv g2 := waitInv_modifyLock g1 li _ (fun l x hx => hx) hw1
  have hc2 : ClassBound g2 := classBound_modifyLock g1 li _ hc1
  have hlen2 : g2.lockHeap.length = g1.lockHeap.length := modifyLock_length g1 li _
  refine ⟨?_, ?_, ?_⟩
  · exact waitInv_modifyThread g2 cur _ (fun t => rfl) hw2
  · intro ti lj h3
    rw [modifyThread_lockHeap, modifyLock_length]
    by_cases hcl : cur < g2.threadHeap.length
    · by_cases hti : ti = cur
      · subst hti
        rw [getThread_modifyThread_self g2 ti _ hcl] at h3
        simp only at h3
        rcases List.mem_append.mp h3 with h3 | h3
        · have := hc2 ti lj h3
          rw [hlen2] at this
          exact this
        · simp only [List.mem_singleton] at h3
          subst h3
          exact hlt
      · rw [getThread_modifyThread_ne g2 cur _ ti (fun he => hti he.symm)] at h3
        have := hc2 ti lj h3
        rw [hlen2] at this
        exact this
    · rw [modifyThread_oob g2 cur _ (Nat.le_of_not_lt hcl)] at h3
      have := hc2 ti lj h3
      rw [hlen2] at this
      exact this
  · intro lj hj
    rw [modifyThread_lockHeap, modifyLock_length]
    exact hd1 lj hj

lemma heldLockRecord_inv (g : GlobalState) (d : ThreadDump) (id cn : String) (cur : Nat)
    (h : Inv g d) :
    Inv (heldLockRecord id cn cur g d).1 (heldLockRecord id cn cur g d).2 := by
  obtain ⟨⟨hw1, hc1, hd1⟩, hlt, hmono, hth, hpres⟩ := getOrCreateLock_inv g d id cn h
  rcases hgc : getOrCreateLock g d id cn with ⟨g1, d1, li⟩
  rw [hgc] at hw1 hc1 hd1
  dsimp only at hw1 hc1 hd1
  unfold heldLockRecord
  rw [hgc]
  dsimp only
  set g2 := modifyLock g1 li (fun l => { l with owner := some cur }) with hg2
  have hw2 : WaitInv g2 := waitInv_modifyLock g1 li _ (fun l x hx => hx) hw1
  have hc2 : ClassBound g2 := classBound_modifyLock g1 li _ hc1
  refine ⟨?_, ?_, ?_⟩
  · exact waitInv_modifyThread g2 cur _ (fun t => rfl) hw2
  · refine classBound_modifyThread g2 cur _ (fun t => rfl) hc2
  · intro lj hj
    rw [modifyThread_lockHeap, modifyLock_length]
    exact hd1 lj hj

lemma getD_append_len {α : Type} (l : List α) (x d : α) :
    (l ++ [x]).getD l.length d = x := by
  simp [List.getD_eq_getElem?_getD, List.getElem?_append_right]

lemma parseThreadHeader_inv (line : List Char) (g : GlobalState) (d : ThreadDump)
    (h : Inv g d) :
    Inv (parseThreadHeader line g d).1 (parseThreadHeader line g d).2 := by
  obtain ⟨hw, hc, hd⟩ := h
  unfold parseThreadHeader
  dsimp only
  refine ⟨?_, ?_, ?_⟩
  · intro ti li h3
    unfold getThread at h3
    dsimp only at h3
    rcases Nat.lt_trichotomy ti g.threadHeap.length with hti | hti | hti
    · rw [List.getD_append _ _ _ _ hti] at h3
      exact hw ti li h3
    · subst hti
      rw [getD_append_len] at h3
      exact Option.noConfusion h3
    · rw [List.getD_eq_default _ _ (by simp only [List.length_append,
        List.length_cons, List.length_nil]; omega)] at h3
      exact Option.noConfusion h3
  · intro ti li h3
    unfold getThread at h3
    dsimp only at h3
    rcases Nat.lt_trichotomy ti g.threadHeap.length with hti | hti | hti
    · rw [List.getD_append _ _ _ _ hti] at h3
      exact hc ti li h3
    · subst hti
      rw [getD_append_len] at h3
      exact absurd h3 (List.not_mem_nil li)
    · rw [List.getD_eq_default _ _ (by simp only [List.length_append,
        List.length_cons, List.length_nil]; omega)] at h3
      exact absurd h3 (List.not_mem_nil li)
  · intro li hli
    exact hd li hli

lemma parseStackLine_inv (line : List Char) (g : GlobalState) (d : ThreadDump)
    (h : Inv g d) :
    Inv (parseStackLine line g d).1 (parseStackLine line g d).2 := by
  unfold parseStackLine
  cases hcur : g.currentThread with
  | none => exact h
  | some cur =>
    dsimp only
    by_cases h1 : matchOneD (matchFrame line) ≠ ""
    · simp only [if_pos h1]
      exact ⟨waitInv_modifyThread g cur _ (fun t => rfl) h.1,
        classBound_modifyThread g cur _ (fun t => rfl) h.2.1,
        h.2.2⟩
    · simp only [if_neg h1]
      by_cases h2 : matchOneD (matchThreadState line) ≠ ""
      · simp only [if_pos h2]
        exact ⟨waitInv_modifyThread g cur _ (fun t => rfl) h.1,
          classBound_modifyThread g cur _ (fun t => rfl) h.2.1,
          h.2.2⟩
      · simp only [if_neg h2]
        cases h3 : matchSyncStatus line with
        | none =>
          cases h4 : matchHeldLock line with
          | none => exact h
          | some pr =>
            rcases pr with ⟨idCs, clCs⟩
            dsimp only
            exact heldLockRecord_inv g d _ _ cur h
        | some tr =>
          rcases tr with ⟨verbCs, idCs, clCs⟩
          dsimp only
          by_cases h5 : String.mk verbCs = "waiting on" ∨
              String.mk verbCs = "parking to wait for" ∨
              String.mk verbCs = "waiting to lock"
          · simp only [if_pos h5]
            exact waitingRecord_inv g d _ _ cur h
          · simp only [if_neg h5]
            by_cases h6 : String.mk verbCs = "locked"
            · simp only [if_pos h6]
              cases h7 : (getThread g cur).lockWaitingFor with
              | none => exact lockedRecord_inv g d _ _ cur h
              | some wi =>
                dsimp only
                by_cases h8 : (getLock g wi).id = String.mk idCs
                · simp only [if_pos h8]
                  exact h
                · simp only [if_neg h8]
                  exact lockedRecord_inv g d _ _ cur h
            · simp only [if_neg h6]
              exact h

lemma parseLine_inv (line : List Char) (gd : GlobalState × ThreadDump)
    (h : Inv gd.1 gd.2) : Inv (parseLine line gd).1 (parseLine line gd).2 := by
  unfold parseLine
  by_cases h1 : strStarts line ['"'] = true
  · simp only [if_pos h1]
    exact parseThreadHeader_inv line gd.1 gd.2 h
  · simp only [h1, Bool.false_eq_true, if_false]
    by_cases h2 : line ≠ []
    · simp only [if_pos h2]
      exact parseStackLine_inv line gd.1 gd.2 h
    · simp only [if_neg h2]
      exact h

lemma foldl_parseLine_inv (ls : List (List Char)) :
    ∀ gd : GlobalState × ThreadDump, Inv gd.1 gd.2 →
    Inv (ls.foldl (fun gd line => parseLine line gd) gd).1
        (ls.foldl (fun gd line => parseLine line gd) gd).2 := by
  induction ls with
  | nil => intro gd h; exact h
  | cons l ls ih =>
    intro gd h
    exact ih (parseLine l gd) (parseLine_inv l gd h)

lemma spliceOut_subset (l : List Nat) (x : Nat) : ∀ y ∈ resolveOne.spliceOut l x, y ∈ l := by
  intro y hy
  unfold resolveOne.spliceOut at hy
  by_cases hc : l.contains x
  · rw [if_pos hc] at hy
    exact List.erase_subset _ _ hy
  · rw [if_neg hc] at hy
    exact List.dropLast_subset l hy

lemma resolveOne_inv (g : GlobalState) (d : ThreadDump) (ti : Nat) (g2 : GlobalState)
    (h : Inv g d) (hres : resolveOne g ti = some g2) : Inv g2 d := by
  obtain ⟨hw, hc, hd⟩ := h
  unfold resolveOne at hres
  cases hh : (getThread g ti).classicalLocksHeld.head? with
  | none => rw [hh] at hres; cases hres
  | some li =>
    rw [hh] at hres
    dsimp only at hres
    have hlt : li < g.lockHeap.length :=
      hc ti li (List.mem_of_mem_head? hh)
    cases hres
    set ga := modifyLock g li
      (fun l => { l with owner := none, waiting := l.waiting ++ [ti] }) with hga
    have hwa : WaitInv ga :=
      waitInv_modifyLock g li _ (fun l x hx => List.mem_append_left _ hx) hw
    have hca : ClassBound ga := classBound_modifyLock g li _ hc
    have hlena : ga.lockHeap.length = g.lockHeap.length := modifyLock_length g li _
    refine ⟨?_, ?_, ?_⟩
    · intro tj lj h3
      by_cases hcl : ti < ga.threadHeap.length
      · by_cases htj : tj = ti
        · subst htj
          rw [getThread_modifyThread_self ga tj _ hcl] at h3
          simp only at h3
          cases h3
          rw [getLock_modifyThread]
          have hlia : li < ga.lockHeap.length := by rw [hlena]; exact hlt
          rw [hga, getLock_modifyLock_self g li _ hlt]
          exact List.mem_append_right _ (List.mem_singleton.mpr rfl)
        · rw [getThread_modifyThread_ne ga ti _ tj (fun he => htj he.symm)] at h3
          rw [getLock_modifyThread]
          exact hwa tj lj h3
      · rw [modifyThread_oob ga ti _ (Nat.le_of_not_lt hcl)] at h3 ⊢
        exact hwa tj lj h3
    · intro tj lj h3
      rw [modifyThread_lockHeap, hlena]
      by_cases hcl : ti < ga.threadHeap.length
      · by_cases htj : tj = ti
        · subst htj
          rw [getThread_modifyThread_self ga tj _ hcl] at h3
          simp only at h3
          have h3' := spliceOut_subset _ _ _ h3
          have := hca tj lj h3'
          rw [hlena] at this
          exact this
        · rw [getThread_modifyThread_ne ga ti _ tj (fun he => htj he.symm)] at h3
          have := hca tj lj h3
          rw [hlena] at this
          exact this
      · rw [modifyThread_oob ga ti _ (Nat.le_of_not_lt hcl)] at h3
        have := hca tj lj h3
        rw [hlena] at this
        exact this
    · intro lj hj
      rw [modifyThread_lockHeap, hlena]
      exact hd lj hj

lemma resolveAll_inv (l : List Nat) :
    ∀ (g : GlobalState) (d : ThreadDump), Inv g d → Inv (resolveAll g l).1 d := by
  induction l with
  | nil => intro g d h; exact h
  | cons ti rest ih =>
    intro g d h
    unfold resolveAll
    cases hres : resolveOne g ti with
    | none => exact h
    | some g2 => exact ih g2 d (resolveOne_inv g d ti g2 h hres)

lemma initState_inv : Inv initState ({} : ThreadDump) := by
  refine ⟨?_, ?_, ?_⟩
  · intro ti li h3
    cases h3
  · intro ti li h3
    exact absurd h3 (List.not_mem_nil li)
  · intro li hli
    exact absurd hli (List.not_mem_nil li)

lemma parseThreadDump_inv (g : GlobalState) (text : String) (h : Inv g ({} : ThreadDump)) :
    Inv (parseThreadDump g text).1 (parseThreadDump g text).2.1 := by
  have hfold := foldl_parseLine_inv (splitLines text.toList) (g, {}) h
  rcases hfd : (splitLines text.toList).foldl (fun gd line => parseLine line gd)
      (g, ({} : ThreadDump)) with ⟨g1, d1⟩
  rw [hfd] at hfold
  have hiv := resolveAll_inv (d1.threads.filter (fun ti => qualifies g1 ti)) g1 d1 hfold
  unfold parseThreadDump
  dsimp only
  rw [hfd]
  exact hiv

/-- C2 (amended): the forward half of the bidirectional agreement holds for
every parsed document — whenever a lock is a thread's wait-target after the
parse (including the resolver's post-pass), that thread is a member of the
lock's waiting set.  The converse is false: a reassigned wait-target leaves
the thread in the earlier lock's waiting set (see the counterexample). -/
theorem C2_wait_target_in_waiting_set (text : String) (ti li : Nat)
    (h : (getThread (parseDump text).1 ti).lockWaitingFor = some li) :
    ti ∈ (getLock (parseDump text).1 li).waiting := by
  have hinv := parseThreadDump_inv initState text initState_inv
  exact hinv.1 ti li h

/-- Witness for C2's amended theorem on a concrete document. -/
theorem C2_wait_target_in_waiting_set_witness :
    (getThread (parseDump "\"T\" nid=0x1\n   - waiting on <0x1> (a Foo)").1 0).lockWaitingFor
      = some 0 ∧
    0 ∈ (getLock (parseDump "\"T\" nid=0x1\n   - waiting on <0x1> (a Foo)").1 0).waiting :=
  ⟨by decide, C2_wait_target_in_waiting_set _ 0 0 (by decide)⟩

/-! ## Cross-invocation simulation

The module-global `currentThread` survives between `parseThreadDump` calls
(claim C8's counterexample exploits it).  The positive side is proved by a
simulation: running the parser on top of existing heaps `hT`/`hL` with a
cleared cursor is the image, under an index-shifting embedding, of running
it from the empty module state. -/

/-- Shift a thread's lock references up by `lOff`. -/
def shiftThread (lOff : Nat) (t : Thread) : Thread :=
  { t with locksHeld := t.locksHeld.map (lOff + ·),
           classicalLocksHeld := t.classicalLocksHeld.map (lOff + ·),
           lockWaitingFor := t.lockWaitingFor.map (lOff + ·) }

/-- Shift a lock's thread references up by `tOff`. -/
def shiftLock (tOff : Nat) (l : Lock) : Lock :=
  { l with owner := l.owner.map (tOff + ·), waiting := l.waiting.map (tOff + ·) }

/-- Graft a fresh-run global state on top of base heaps. -/
def embedG (hT : List Thread) (hL : List Lock) (g : GlobalState) : GlobalState :=
  { threadHeap := hT ++ g.threadHeap.map (shiftThread hL.length),
    lockHeap := hL ++ g.lockHeap.map (shiftLock hT.length),
    currentThread := g.currentThread.map (hT.length + ·) }

/-- Graft a fresh-run dump on top of base heaps. -/
def embedD (hT : List Thread) (hL : List Lock) (d : ThreadDump) : ThreadDump :=
  { threads := d.threads.map (hT.length + ·),
    locks := d.locks.map (hL.length + ·) }

lemma getD_append_off {α : Type} (l₁ l₂ : List α) (i : Nat) (dl : α) :
    (l₁ ++ l₂).getD (l₁.length + i) dl = l₂.getD i dl := by
  simp [List.getD_eq_getElem?_getD, List.getElem?_append_right,
    Nat.add_sub_cancel_left]

lemma getD_map_default {α β : Type} (f : α → β) (l : List α) (i : Nat) (dl : α) :
    (l.map f).getD i (f dl) = f (l.getD i dl) := by
  simp only [List.getD_eq_getElem?_getD, List.getElem?_map]
  cases h : l[i]? <;> simp [h]

lemma shiftThread_default (lOff : Nat) : shiftThread lOff default = default := rfl

lemma shiftLock_default (tOff : Nat) : shiftLock tOff default = default := rfl

lemma getThread_embed (hT : List Thread) (hL : List Lock) (g : GlobalState) (i : Nat) :
    getThread (embedG hT hL g) (hT.length + i) = shiftThread hL.length (getThread g i) := by
  unfold getThread embedG
  dsimp only
  rw [getD_append_off]
  rw [show (default : Thread) = shiftThread hL.length default from rfl]
  exact getD_map_default _ _ _ _

lemma getLock_embed (hT : List Thread) (hL : List Lock) (g : GlobalState) (j : Nat) :
    getLock (embedG hT hL g) (hL.length + j) = shiftLock hT.length (getLock g j) := by
  unfold getLock embedG
  dsimp only
  rw [getD_append_off]
  rw [show (default : Lock) = shiftLock hT.length default from rfl]
  exact getD_map_default _ _ _ _

lemma set_append_off {α : Type} (l₁ l₂ : List α) (i : Nat) (x : α) :
    (l₁ ++ l₂).set (l₁.length + i) x = l₁ ++ l₂.set i x := by
  simp [List.set_append]

lemma modifyThread_embed (hT : List Thread) (hL : List Lock) (g : GlobalState)
    (i : Nat) (fa fb : Thread → Thread)
    (hf : ∀ t, fa (shiftThread hL.length t) = shiftThread hL.length (fb t)) :
    modifyThread (embedG hT hL g) (hT.length + i) fa
      = embedG hT hL (modifyThread g i fb) := by
  unfold modifyThread
  rw [getThread_embed, hf]
  unfold embedG
  dsimp only
  rw [set_append_off, List.map_set]

lemma modifyLock_embed (hT : List Thread) (hL : List Lock) (g : GlobalState)
    (j : Nat) (fa fb : Lock → Lock)
    (hf : ∀ l, fa (shiftLock hT.length l) = shiftLock hT.length (fb l)) :
    modifyLock (embedG hT hL g) (hL.length + j) fa
      = embedG hT hL (modifyLock g j fb) := by
  unfold modifyLock
  rw [getLock_embed, hf]
  unfold embedG
  dsimp only
  rw [set_append_off, List.map_set]

lemma findLockIdx_embed (hT : List Thread) (hL : List Lock) (g : GlobalState)
    (locks : List Nat) (id : String) :
    findLockIdx (embedG hT hL g) (locks.map (hL.length + ·)) id
      = (findLockIdx g locks id).map (hL.length + ·) := by
  unfold findLockIdx
  rw [show List.find? (fun li => (getLock (embedG hT hL g) li).id == id)
        (locks.map (hL.length + ·))
      = (List.find? (fun li =>
          (getLock (embedG hT hL g) (hL.length + li)).id == id) locks).map (hL.length + ·) from by
    simp [List.find?_map]; rfl]
  congr 1
  congr 1
  funext x
  rw [getLock_embed]
  rfl

lemma getOrCreateLock_embed (hT : List Thread) (hL : List Lock) (g : GlobalState)
    (d : ThreadDump) (id cn : String) :
    getOrCreateLock (embedG hT hL g) (embedD hT hL d) id cn
      = (embedG hT hL (getOrCreateLock g d id cn).1,
         embedD hT hL (getOrCreateLock g d id cn).2.1,
         hL.length + (getOrCreateLock g d id cn).2.2) := by
  unfold getOrCreateLock
  rw [show (embedD hT hL d).locks = d.locks.map (hL.length + ·) from rfl,
    findLockIdx_embed]
  cases h : findLockIdx g d.locks id with
  | some li =>
    dsimp only [Option.map]
  | none =>
    dsimp only [Option.map]
    simp only [embedG, embedD, List.length_append, List.length_map, List.map_append]
    simp [shiftLock]

lemma waitingRecord_embed (hT : List Thread) (hL : List Lock) (id cn : String)
    (cur : Nat) (g : GlobalState) (d : ThreadDump) :
    waitingRecord id cn (hT.length + cur) (embedG hT hL g) (embedD hT hL d)
      = (embedG hT hL (waitingRecord id cn cur g d).1,
         embedD hT hL (waitingRecord id cn cur g d).2) := by
  unfold waitingRecord
  rw [getOrCreateLock_embed]
  rcases hgc : getOrCreateLock g d id cn with ⟨g1, d1, li⟩
  dsimp only
  rw [modifyLock_embed hT hL g1 li
      (fun l => { l with waiting := l.waiting ++ [hT.length + cur] })
      (fun l => { l with waiting := l.waiting ++ [cur] })
      (by intro l; simp [shiftLock])]
  rw [modifyThread_embed hT hL
      (modifyLock g1 li (fun l => { l with waiting := l.waiting ++ [cur] })) cur
      (fun t => { t with lockWaitingFor := some (hL.length + li) })
      (fun t => { t with lockWaitingFor := some li })
      (by intro t; simp [shiftThread])]

lemma lockedRecord_embed (hT : List Thread) (hL : List Lock) (id cn : String)
    (cur : Nat) (g : GlobalState) (d : ThreadDump) :
    lockedRecord id cn (hT.length + cur) (embedG hT hL g) (embedD hT hL d)
      = (embedG hT hL (lockedRecord id cn cur g d).1,
         embedD hT hL (lockedRecord id cn cur g d).2) := by
  unfold lockedRecord
  rw [getOrCreateLock_embed]
  rcases hgc : getOrCreateLock g d id cn with ⟨g1, d1, li⟩
  dsimp only
  rw [modifyLock_embed hT hL g1 li
      (fun l => { l with owner := some (hT.length + cur) })
      (fun l => { l with owner := some cur })
      (by intro l; simp [shiftLock])]
  rw [modifyThread_embed hT hL
      (modifyLock g1 li (fun l => { l with owner := some cur })) cur
      (fun t => { t with locksHeld := t.locksHeld ++ [hL.length + li],
                         classicalLocksHeld := t.classicalLocksHeld ++ [hL.length + li] })
      (fun t => { t with locksHeld := t.locksHeld ++ [li],
                         classicalLocksHeld := t.classicalLocksHeld ++ [li] })
      (by intro t; simp [shiftThread])]

lemma heldLockRecord_embed (hT : List Thread) (hL : List Lock) (id cn : String)
    (cur : Nat) (g : GlobalState) (d : ThreadDump) :
    heldLockRecord id cn (hT.length + cur) (embedG hT hL g) (embedD hT hL d)
      = (embedG hT hL (heldLockRecord id cn cur g d).1,
         embedD hT hL (heldLockRecord id cn cur g d).2) := by
  unfold heldLockRecord
  rw [getOrCreateLock_embed]
  rcases hgc : getOrCreateLock g d id cn with ⟨g1, d1, li⟩
  dsimp only
  rw [modifyLock_embed hT hL g1 li
      (fun l => { l with owner := some (hT.length + cur) })
      (fun l => { l with owner := some cur })
      (by intro l; simp [shiftLock])]
  rw [modifyThread_embed hT hL
      (modifyLock g1 li (fun l => { l with owner := some cur })) cur
      (fun t => { t with locksHeld := t.locksHeld ++ [hL.length + li] })
      (fun t => { t with locksHeld := t.locksHeld ++ [li] })
      (by intro t; simp [shiftThread])]

lemma parseThreadHeader_embed (hT : List Thread) (hL : List Lock) (line : List Char)
    (g : GlobalState) (d : ThreadDump) :
    parseThreadHeader line (embedG hT hL g) (embedD hT hL d)
      = (embedG hT hL (parseThreadHeader line g d).1,
         embedD hT hL (parseThreadHeader line g d).2) := by
  unfold parseThreadHeader
  dsimp only
  simp only [embedG, embedD, List.length_append, List.length_map, List.map_append,
    List.append_assoc, Option.map_some]
  simp [shiftThread]

lemma parseStackLine_embed (hT : List Thread) (hL : List Lock) (line : List Char)
    (g : GlobalState) (d : ThreadDump) :
    parseStackLine line (embedG hT hL g) (embedD hT hL d)
      = (embedG hT hL (parseStackLine line g d).1,
         embedD hT hL (parseStackLine line g d).2) := by
  unfold parseStackLine
  rw [show (embedG hT hL g).currentThread = g.currentThread.map (hT.length + ·) from rfl]
  cases hc : g.currentThread with
  | none => rfl
  | some cur =>
    dsimp only [Option.map]
    by_cases h1 : matchOneD (matchFrame line) ≠ ""
    · simp only [if_pos h1]
      rw [modifyThread_embed hT hL g cur
          (fun t => { t with stackTrace := t.stackTrace ++ [matchOneD (matchFrame line)] })
          (fun t => { t with stackTrace := t.stackTrace ++ [matchOneD (matchFrame line)] })
          (by intro t; simp [shiftThread])]
    · simp only [if_neg h1]
      by_cases h2 : matchOneD (matchThreadState line) ≠ ""
      · simp only [if_pos h2]
        rw [modifyThread_embed hT hL g cur
            (fun t =>
              { t with status := some (stringToThreadStatus (matchOneD (matchThreadState line))) })
            (fun t =>
              { t with status := some (stringToThreadStatus (matchOneD (matchThreadState line))) })
            (by intro t; simp [shiftThread])]
      · simp only [if_neg h2]
        cases h3 : matchSyncStatus line with
        | none =>
          cases h4 : matchHeldLock line with
          | none => rfl
          | some pr =>
            rcases pr with ⟨idCs, clCs⟩
            dsimp only
            exact heldLockRecord_embed hT hL _ _ cur g d
        | some tr =>
          rcases tr with ⟨verbCs, idCs, clCs⟩
          dsimp only
          by_cases h5 : String.mk verbCs = "waiting on" ∨
              String.mk verbCs = "parking to wait for" ∨
              String.mk verbCs = "waiting to lock"
          · simp only [if_pos h5]
            exact waitingRecord_embed hT hL _ _ cur g d
          · simp only [if_neg h5]
            by_cases h6 : String.mk verbCs = "locked"
            · simp only [if_pos h6]
              rw [getThread_embed]
              rw [show (shiftThread hL.length (getThread g cur)).lockWaitingFor
                  = (getThread g cur).lockWaitingFor.map (hL.length + ·) from rfl]
              cases h7 : (getThread g cur).lockWaitingFor with
              | none =>
                dsimp only [Option.map]
                exact lockedRecord_embed hT hL _ _ cur g d
              | some wi =>
                dsimp only [Option.map]
                rw [getLock_embed]
                rw [show (shiftLock hT.length (getLock g wi)).id = (getLock g wi).id from rfl]
                by_cases h8 : (getLock g wi).id = String.mk idCs
                · simp only [if_pos h8]
                · simp only [if_neg h8]
                  exact lockedRecord_embed hT hL _ _ cur g d
            · simp only [if_neg h6]

lemma parseLine_embed (hT : List Thread) (hL : List Lock) (line : List Char)
    (gd : GlobalState × ThreadDump) :
    parseLine line (embedG hT hL gd.1, embedD hT hL gd.2)
      = (embedG hT hL (parseLine line gd).1, embedD hT hL (parseLine line gd).2) := by
  unfold parseLine
  by_cases h1 : strStarts line ['"'] = true
  · simp only [if_pos h1]
    exact parseThreadHeader_embed hT hL line gd.1 gd.2
  · simp only [h1, Bool.false_eq_true, if_false]
    by_cases h2 : line ≠ []
    · simp only [if_pos h2]
      exact parseStackLine_embed hT hL line gd.1 gd.2
    · simp only [if_neg h2]

lemma foldl_parseLine_embed (hT : List Thread) (hL : List Lock)
    (ls : List (List Char)) :
    ∀ gd : GlobalState × ThreadDump,
    ls.foldl (fun gd line => parseLine line gd) (embedG hT hL gd.1, embedD hT hL gd.2)
      = (embedG hT hL (ls.foldl (fun gd line => parseLine line gd) gd).1,
         embedD hT hL (ls.foldl (fun gd line => parseLine line gd) gd).2) := by
  induction ls with
  | nil => intro gd; rfl
  | cons l ls ih =>
    intro gd
    simp only [List.foldl_cons]
    rw [parseLine_embed hT hL l gd]
    exact ih (parseLine l gd)

lemma contains_map_add (l : List Nat) (k x : Nat) :
    (l.map (k + ·)).contains (k + x) = l.contains x := by
  induction l with
  | nil => rfl
  | cons a as ih =>
    simp only [List.map_cons, List.contains_cons, ih]
    congr 1
    by_cases h : a = x
    · subst h; simp
    · rw [Bool.eq_iff_iff]
      simp [h, fun hh => h (Nat.add_left_cancel hh)]

lemma erase_map_add (l : List Nat) (k x : Nat) :
    (l.map (k + ·)).erase (k + x) = (l.erase x).map (k + ·) := by
  induction l with
  | nil => rfl
  | cons a as ih =>
    by_cases h : a = x
    · subst h; simp [List.erase_cons]
    · have h1 : ((k + a) == (k + x)) = false := by
        simp only [beq_eq_false_iff_ne, ne_eq]
        exact fun hh => h (Nat.add_left_cancel hh)
      have h2 : (a == x) = false := by
        simp only [beq_eq_false_iff_ne, ne_eq]
        exact h
      simp [List.erase_cons, h1, h2, ih]

lemma spliceOut_map_add (l : List Nat) (k x : Nat) :
    resolveOne.spliceOut (l.map (k + ·)) (k + x)
      = (resolveOne.spliceOut l x).map (k + ·) := by
  unfold resolveOne.spliceOut
  rw [contains_map_add]
  by_cases h : l.contains x
  · rw [if_pos h, if_pos h, erase_map_add]
  · rw [if_neg h, if_neg h, ← List.map_dropLast]

lemma qualifies_embed (hT : List Thread) (hL : List Lock) (g : GlobalState) (ti : Nat) :
    qualifies (embedG hT hL g) (hT.length + ti) = qualifies g ti := by
  unfold qualifies
  rw [getThread_embed]
  cases ht : (getThread g ti).lockWaitingFor <;>
    cases hs : (getThread g ti).status <;>
      simp [shiftThread, ht, hs]

lemma filter_qualifies_embed (hT : List Thread) (hL : List Lock) (g : GlobalState)
    (threads : List Nat) :
    (threads.map (hT.length + ·)).filter (fun ti => qualifies (embedG hT hL g) ti)
      = (threads.filter (fun ti => qualifies g ti)).map (hT.length + ·) := by
  induction threads with
  | nil => rfl
  | cons ti rest ih =>
    simp only [List.map_cons, List.filter_cons, qualifies_embed, ih]
    by_cases h : qualifies g ti = true
    · simp [h]
    · simp [h]

lemma resolveOne_embed (hT : List Thread) (hL : List Lock) (g : GlobalState) (ti : Nat) :
    resolveOne (embedG hT hL g) (hT.length + ti)
      = (resolveOne g ti).map (embedG hT hL) := by
  unfold resolveOne
  rw [getThread_embed]
  rw [show (shiftThread hL.length (getThread g ti)).classicalLocksHeld
      = (getThread g ti).classicalLocksHeld.map (hL.length + ·) from rfl]
  cases hh : (getThread g ti).classicalLocksHeld with
  | nil => rfl
  | cons li rest =>
    dsimp only [List.map_cons, List.head?, Option.map]
    rw [modifyLock_embed hT hL g li
        (fun l => { l with owner := none, waiting := l.waiting ++ [hT.length + ti] })
        (fun l => { l with owner := none, waiting := l.waiting ++ [ti] })
        (by intro l; simp [shiftLock])]
    rw [modifyThread_embed hT hL
        (modifyLock g li (fun l => { l with owner := none, waiting := l.waiting ++ [ti] })) ti
        (fun t =>
          { t with lockWaitingFor := some (hL.length + li),
                   locksHeld := resolveOne.spliceOut t.locksHeld (hL.length + li),
                   classicalLocksHeld := resolveOne.spliceOut t.classicalLocksHeld (hL.length + li) })
        (fun t =>
          { t with lockWaitingFor := some li,
                   locksHeld := resolveOne.spliceOut t.locksHeld li,
                   classicalLocksHeld := resolveOne.spliceOut t.classicalLocksHeld li })
        (by intro t; simp [shiftThread, spliceOut_map_add])]

lemma resolveAll_embed (hT : List Thread) (hL : List Lock) (l : List Nat) :
    ∀ g : GlobalState,
    resolveAll (embedG hT hL g) (l.map (hT.length + ·))
      = (embedG hT hL (resolveAll g l).1, (resolveAll g l).2) := by
  induction l with
  | nil => intro g; rfl
  | cons ti rest ih =>
    intro g
    simp only [List.map_cons]
    unfold resolveAll
    rw [resolveOne_embed]
    cases hro : resolveOne g ti with
    | none => rfl
    | some g2 =>
      dsimp only [Option.map]
      exact ih g2

lemma identify_embed (hT : List Thread) (hL : List Lock) (g : GlobalState)
    (threads : List Nat) :
    identifyAnonymousSynchronizers (embedG hT hL g) (threads.map (hT.length + ·))
      = (embedG hT hL (identifyAnonymousSynchronizers g threads).1,
         (identifyAnonymousSynchronizers g threads).2) := by
  unfold identifyAnonymousSynchronizers
  rw [filter_qualifies_embed, resolveAll_embed]

lemma parseThreadDump_embed (hT : List Thread) (hL : List Lock) (g : GlobalState)
    (text : String) :
    parseThreadDump (embedG hT hL g) text
      = (embedG hT hL (parseThreadDump g text).1,
         embedD hT hL (parseThreadDump g text).2.1,
         (parseThreadDump g text).2.2) := by
  have hfold := foldl_parseLine_embed hT hL (splitLines text.toList) (g, {})
  rcases hfd : (splitLines text.toList).foldl (fun gd line => parseLine line gd)
      (g, ({} : ThreadDump)) with ⟨g1, d1⟩
  rw [hfd] at hfold
  have hfold2 : (splitLines text.toList).foldl (fun gd line => parseLine line gd)
      (embedG hT hL g, ({} : ThreadDump)) = (embedG hT hL g1, embedD hT hL d1) := hfold
  have hth : (embedD hT hL d1).threads = d1.threads.map (hT.length + ·) := rfl
  rcases hid : identifyAnonymousSynchronizers g1 d1.threads with ⟨g2, ok⟩
  have hide := identify_embed hT hL g1 d1.threads
  rw [hid] at hide
  unfold parseThreadDump
  dsimp only
  rw [hfold2, hfd, hth, hide, hid]

/-! ## Index-free views

"Structural equality" of parsed models is equality of views in which every
heap reference is resolved to a position in the dump's own thread or lock
list (`none` for a reference that escapes the dump, as a stale cursor can
produce). -/

def posIn (l : List Nat) (x : Nat) : Option Nat :=
  match l with
  | [] => none
  | a :: as => if a == x then some 0 else (posIn as x).map (· + 1)

structure ThreadView where
  name : String
  id : Option Nat
  status : Option ThreadStatus
  stackTrace : List String
  locksHeld : List (Option Nat)
  classicalLocksHeld : List (Option Nat)
  lockWaitingFor : Option (Option Nat)
deriving DecidableEq, Repr

structure LockView where
  id : String
  className : String
  owner : Option (Option Nat)
  waiting : List (Option Nat)
deriving DecidableEq, Repr

structure DumpView where
  threads : List ThreadView
  locks : List LockView
deriving DecidableEq, Repr

def viewThread (g : GlobalState) (d : ThreadDump) (ti : Nat) : ThreadView :=
  let t := getThread g ti
  { name := t.name, id := t.id, status := t.status, stackTrace := t.stackTrace,
    locksHeld := t.locksHeld.map (posIn d.locks),
    classicalLocksHeld := t.classicalLocksHeld.map (posIn d.locks),
    lockWaitingFor := t.lockWaitingFor.map (posIn d.locks) }

def viewLock (g : GlobalState) (d : ThreadDump) (li : Nat) : LockView :=
  let l := getLock g li
  { id := l.id, className := l.className,
    owner := l.owner.map (posIn d.threads),
    waiting := l.waiting.map (posIn d.threads) }

def viewDump (g : GlobalState) (d : ThreadDump) : DumpView :=
  { threads := d.threads.map (viewThread g d),
    locks := d.locks.map (viewLock g d) }

lemma posIn_map_add (l : List Nat) (k x : Nat) :
    posIn (l.map (k + ·)) (k + x) = posIn l x := by
  induction l with
  | nil => rfl
  | cons a as ih =>
    have hbeq : ((k + a) == (k + x)) = (a == x) := by
      by_cases h : a = x
      · subst h; simp
      · have h1 : ((k + a) == (k + x)) = false := by
          simp only [beq_eq_false_iff_ne, ne_eq]
          exact fun hh => h (Nat.add_left_cancel hh)
        have h2 : (a == x) = false := beq_eq_false_iff_ne.mpr h
        rw [h1, h2]
    simp only [List.map_cons, posIn, hbeq, ih]

lemma viewThread_embed (hT : List Thread) (hL : List Lock) (g : GlobalState)
    (d : ThreadDump) (ti : Nat) :
    viewThread (embedG hT hL g) (embedD hT hL d) (hT.length + ti) = viewThread g d ti := by
  unfold viewThread
  rw [getThread_embed]
  rw [show (embedD hT hL d).locks = d.locks.map (hL.length + ·) from rfl]
  unfold shiftThread
  dsimp only
  simp only [List.map_map, Option.map_map]
  have hfun : posIn (d.locks.map (hL.length + ·)) ∘ (fun x => hL.length + x)
      = posIn d.locks := by
    funext x
    exact posIn_map_add d.locks hL.length x
  rw [hfun]

lemma viewLock_embed (hT : List Thread) (hL : List Lock) (g : GlobalState)
    (d : ThreadDump) (li : Nat) :
    viewLock (embedG hT hL g) (embedD hT hL d) (hL.length + li) = viewLock g d li := by
  unfold viewLock
  rw [getLock_embed]
  rw [show (embedD hT hL d).threads = d.threads.map (hT.length + ·) from rfl]
  unfold shiftLock
  dsimp only
  simp only [List.map_map, Option.map_map]
  have hfun : posIn (d.threads.map (hT.length + ·)) ∘ (fun x => hT.length + x)
      = posIn d.threads := by
    funext x
    exact posIn_map_add d.threads hT.length x
  rw [hfun]

lemma viewDump_embed (hT : List Thread) (hL : List Lock) (g : GlobalState)
    (d : ThreadDump) :
    viewDump (embedG hT hL g) (embedD hT hL d) = viewDump g d := by
  unfold viewDump
  rw [show (embedD hT hL d).threads = d.threads.map (hT.length + ·) from rfl,
    show (embedD hT hL d).locks = d.locks.map (hL.length + ·) from rfl]
  simp only [List.map_map, Function.comp]
  congr 1
  · apply List.map_congr_left
    intro ti _
    exact viewThread_embed hT hL g d ti
  · apply List.map_congr_left
    intro li _
    exact viewLock_embed hT hL g d li

lemma embedG_noCursor (g : GlobalState) (h : g.currentThread = none) :
    embedG g.threadHeap g.lockHeap initState = g := by
  rcases g with ⟨th, lh, cur⟩
  simp only at h
  subst h
  simp [embedG, initState]

/-! ## Header-first re-parse stability -/

/-- A line that mutates nothing in `parseStackLine`: empty, or matched by
none of the frame / thread-state / sync-status / held-lock patterns. -/
def inertLine (line : List Char) : Prop :=
  line = [] ∨ (matchOneD (matchFrame line) = "" ∧ matchOneD (matchThreadState line) = "" ∧
    matchSyncStatus line = none ∧ matchHeldLock line = none)

instance inertLine.decPred : DecidablePred inertLine := by
  intro line
  unfold inertLine
  infer_instance

/-- Every line before the first thread-header line is inert (real dumps
satisfy this: their preamble lines match none of the mutating patterns). -/
def headerFirst (text : String) : Prop :=
  ∀ line ∈ (splitLines text.toList).takeWhile (fun l => !(strStarts l ['"'])), inertLine line

instance headerFirst.dec (text : String) : Decidable (headerFirst text) := by
  unfold headerFirst
  infer_instance

lemma parseStackLine_noop (line : List Char) (g : GlobalState) (d : ThreadDump)
    (h1 : matchOneD (matchFrame line) = "") (h2 : matchOneD (matchThreadState line) = "")
    (h3 : matchSyncStatus line = none) (h4 : matchHeldLock line = none) :
    parseStackLine line g d = (g, d) := by
  unfold parseStackLine
  cases hc : g.currentThread with
  | none => rfl
  | some cur => simp [h1, h2, h3, h4]

lemma parseLine_noop (line : List Char) (hh : strStarts line ['"'] = false)
    (hi : inertLine line) (s : GlobalState × ThreadDump) : parseLine line s = s := by
  unfold parseLine
  rw [hh]
  simp only [Bool.false_eq_true, if_false]
  rcases hi with hi | ⟨h1, h2, h3, h4⟩
  · simp [hi]
  · by_cases he : line = []
    · simp [he]
    · rw [if_pos he, parseStackLine_noop line s.1 s.2 h1 h2 h3 h4]

lemma foldl_noop (ls : List (List Char))
    (hls : ∀ l ∈ ls, strStarts l ['"'] = false ∧ inertLine l) :
    ∀ s : GlobalState × ThreadDump,
      ls.foldl (fun gd line => parseLine line gd) s = s := by
  induction ls with
  | nil => intro s; rfl
  | cons l ls ih =>
    intro s
    simp only [List.foldl_cons]
    rw [parseLine_noop l (hls l (List.mem_cons_self l ls)).1
      (hls l (List.mem_cons_self l ls)).2]
    exact ih (fun x hx => hls x (List.mem_cons_of_mem l hx)) s

lemma dropWhile_head_false {α : Type} (p : α → Bool) :
    ∀ (l : List α) (x : α) (xs : List α), l.dropWhile p = x :: xs → p x = false := by
  intro l
  induction l with
  | nil => intro x xs h; simp [List.dropWhile] at h
  | cons a as ih =>
    intro x xs h
    rw [List.dropWhile_cons] at h
    by_cases hp : p a = true
    · rw [if_pos hp] at h
      exact ih x xs h
    · rw [if_neg hp] at h
      cases h
      simpa using hp

lemma parseThreadDump_eq (g : GlobalState) (text : String) (g1 g2 : GlobalState)
    (d1 : ThreadDump) (ok : Bool)
    (hf : (splitLines text.toList).foldl (fun gd line => parseLine line gd)
      (g, ({} : ThreadDump)) = (g1, d1))
    (hi : identifyAnonymousSynchronizers g1 d1.threads = (g2, ok)) :
    parseThreadDump g text = (g2, d1, ok) := by
  unfold parseThreadDump
  dsimp only
  rw [hf, hi]

lemma parseThreadHeader_fresh (line : List Char) (g : GlobalState) :
    parseThreadHeader line g ({} : ThreadDump)
      = (embedG g.threadHeap g.lockHeap
           (parseThreadHeader line initState ({} : ThreadDump)).1,
         embedD g.threadHeap g.lockHeap
           (parseThreadHeader line initState ({} : ThreadDump)).2) := by
  unfold parseThreadHeader initState
  dsimp only
  simp [embedG, embedD, shiftThread]

/-- C8 (amended): parsing is deterministic given the module state, and for
documents in which every line before the first thread header is inert (as
in real dumps, whose preambles match no mutating pattern) the resulting
model is structurally the same — as an index-free view — no matter what
earlier `parseThreadDump` invocations left in the module-global state.
Without the proviso the claim fails (see the counterexample). -/
theorem C8_reparse_view_stable (g : GlobalState) (text : String)
    (hpre : headerFirst text) :
    viewDump (parseThreadDump g text).1 (parseThreadDump g text).2.1
      = viewDump (parseDump text).1 (parseDump text).2.1 ∧
    (parseThreadDump g text).2.2 = (parseDump text).2.2 := by
  unfold parseDump
  have hsplit := List.takeWhile_append_dropWhile
      (fun l => !(strStarts l ['"'])) (splitLines text.toList)
  have hprelines : ∀ l ∈ (splitLines text.toList).takeWhile (fun l => !(strStarts l ['"'])),
      strStarts l ['"'] = false ∧ inertLine l := by
    intro l hl
    refine ⟨?_, hpre l hl⟩
    have := List.mem_takeWhile_imp hl
    simpa using this
  have hfoldsplit : ∀ s : GlobalState × ThreadDump,
      (splitLines text.toList).foldl (fun gd line => parseLine line gd) s
        = ((splitLines text.toList).dropWhile (fun l => !(strStarts l ['"']))).foldl
            (fun gd line => parseLine line gd) s := by
    intro s
    conv_lhs => rw [← hsplit]
    rw [List.foldl_append, foldl_noop _ hprelines s]
  cases hrest : (splitLines text.toList).dropWhile (fun l => !(strStarts l ['"'])) with
  | nil =>
    have hfa : (splitLines text.toList).foldl (fun gd line => parseLine line gd)
        (g, ({} : ThreadDump)) = (g, ({} : ThreadDump)) := by
      rw [hfoldsplit, hrest]
      rfl
    have hfb : (splitLines text.toList).foldl (fun gd line => parseLine line gd)
        (initState, ({} : ThreadDump)) = (initState, ({} : ThreadDump)) := by
      rw [hfoldsplit, hrest]
      rfl
    rw [parseThreadDump_eq g text g g ({} : ThreadDump) true hfa rfl,
      parseThreadDump_eq initState text initState initState ({} : ThreadDump) true hfb rfl]
    exact ⟨rfl, rfl⟩
  | cons hline t =>
    have hheader : strStarts hline ['"'] = true := by
      have := dropWhile_head_false (fun l => !(strStarts l ['"']))
        (splitLines text.toList) hline t hrest
      simpa using this
    rcases hB1 : parseThreadHeader hline initState ({} : ThreadDump) with ⟨gB1, dB1⟩
    rcases hBf : t.foldl (fun gd line => parseLine line gd) (gB1, dB1) with ⟨gB, dB⟩
    have hstep : ∀ gx : GlobalState, parseLine hline (gx, ({} : ThreadDump))
        = parseThreadHeader hline gx ({} : ThreadDump) := by
      intro gx
      unfold parseLine
      rw [hheader]
      rfl
    have hfb : (splitLines text.toList).foldl (fun gd line => parseLine line gd)
        (initState, ({} : ThreadDump)) = (gB, dB) := by
      rw [hfoldsplit, hrest]
      simp only [List.foldl_cons]
      rw [hstep initState, hB1]
      exact hBf
    have hfa : (splitLines text.toList).foldl (fun gd line => parseLine line gd)
        (g, ({} : ThreadDump))
        = (embedG g.threadHeap g.lockHeap gB, embedD g.threadHeap g.lockHeap dB) := by
      rw [hfoldsplit, hrest]
      simp only [List.foldl_cons]
      rw [hstep g, parseThreadHeader_fresh, hB1]
      have hemb := foldl_parseLine_embed g.threadHeap g.lockHeap t (gB1, dB1)
      dsimp only at hemb
      rw [hBf] at hemb
      exact hemb
    rcases hidB : identifyAnonymousSynchronizers gB dB.threads with ⟨gB2, ok⟩
    have hiA : identifyAnonymousSynchronizers (embedG g.threadHeap g.lockHeap gB)
        (embedD g.threadHeap g.lockHeap dB).threads
        = (embedG g.threadHeap g.lockHeap gB2, ok) := by
      rw [show (embedD g.threadHeap g.lockHeap dB).threads
          = dB.threads.map (g.threadHeap.length + ·) from rfl]
      rw [identify_embed, hidB]
    rw [parseThreadDump_eq g text (embedG g.threadHeap g.lockHeap gB)
        (embedG g.threadHeap g.lockHeap gB2) (embedD g.threadHeap g.lockHeap dB) ok hfa hiA,
      parseThreadDump_eq initState text gB gB2 dB ok hfb hidB]
    exact ⟨viewDump_embed g.threadHeap g.lockHeap gB2 dB, rfl⟩

/-- Witness for C8's amended theorem: re-parsing a header-first document
after an earlier parse (which leaves a stale module-global cursor) yields
the same view as a fresh-process parse. -/
theorem C8_reparse_view_stable_witness :
    viewDump (parseThreadDump (parseThreadDump initState "\"T\" nid=0x1").1
        "\"S\" nid=0x2").1
      (parseThreadDump (parseThreadDump initState "\"T\" nid=0x1").1
        "\"S\" nid=0x2").2.1
      = viewDump (parseDump "\"S\" nid=0x2").1 (parseDump "\"S\" nid=0x2").2.1 ∧
    (parseThreadDump (parseThreadDump initState "\"T\" nid=0x1").1 "\"S\" nid=0x2").2.2
      = (parseDump "\"S\" nid=0x2").2.2 :=
  C8_reparse_view_stable _ _ (by decide)

end Watson
